import Mathlib

/-!
The file `pytorch-bindings/src/tensorlist_node.cpp` of quick-mlp.

A shallow embedding of the list-valued custom autograd node
(`TensorlistFunction::apply`, `TensorlistNode::apply`,
`TensorlistNode::release_variables` and the `TensorlistAutogradContext`
methods) together with theorems about its backward reconciliation and its
saved-variable bookkeeping.

Conventions of the embedding

* A `shared_ptr<Node>` or `Node*` is the address of the node, a `Nat`; a null
  pointer and an expired `weak_ptr` are `none`.
* `int` counters hold vector sizes; they are natural numbers here (a vector of
  `2^31` tensors is outside the range this development looks at).
* `vector::operator[]` past the end is undefined behaviour in the source; the
  embedding makes it the explicit outcome `Error.OutOfRange`.
* A C++ exception is an `Except.error`; state changes made before the throw are
  kept, so a closure returns its result next to the context it leaves behind.
-/

namespace QuickMLP

/-! ## Array values -/

/-- What this file observes of a defined `at::Tensor`: the address of its
`TensorImpl` (the ownership token), its layout, device, scalar type and sizes
folded into one code `tmeta`, the requires-grad flag, the producer node
`grad_fn()` and whether it is the all-zero tensor made by `at::zeros`. -/
structure TensorData where
  impl : Nat
  tmeta : Nat
  requires_grad : Bool
  grad_fn : Option Nat
  zero_filled : Bool
  deriving DecidableEq, Repr

/-- A `torch::autograd::Variable`: an undefined tensor or a defined one. -/
inductive Variable where
  | undefined
  | tensor (t : TensorData)
  deriving DecidableEq, Repr

abbrev variable_list := List Variable

/-- The method `Tensor::defined()`. -/
def Variable.defined : Variable → Bool
  | .undefined => false
  | .tensor _ => true

/-- The method `Tensor::requires_grad()`; an undefined tensor does not. -/
def Variable.requires_grad : Variable → Bool
  | .undefined => false
  | .tensor t => t.requires_grad

/-- The pointer `var.grad_fn().get()`; null for a leaf and for an undefined tensor. -/
def Variable.grad_fn : Variable → Option Nat
  | .undefined => none
  | .tensor t => t.grad_fn

/-- Layout, device, scalar type and sizes of a tensor, as one code. -/
def Variable.tmeta : Variable → Nat
  | .undefined => 0
  | .tensor t => t.tmeta

/-- The pointer `var.unsafeGetTensorImpl()`: `none` stands for the one shared
`UndefinedTensorImpl` that every undefined tensor points to. -/
def Variable.unsafeGetTensorImpl : Variable → Option Nat
  | .undefined => none
  | .tensor t => some t.impl

/-- The library routine `torch::autograd::any_variable_requires_grad`. -/
def any_variable_requires_grad (args : variable_list) : Bool :=
  args.any (fun v => v.defined && v.requires_grad)

/-! ## Library records -/

/-- Modelled from the spec: `torch::autograd::VariableInfo` (the InputRecord and
OutputRecord of the spec) is declared outside `src/`. A record made from a value
keeps that value's requires-grad flag and its shape/dtype metadata; the
default-constructed record of line 63 is the absent placeholder (`is_empty`). -/
structure VariableInfo where
  tmeta : Nat
  requires_grad : Bool
  is_empty : Bool
  deriving DecidableEq, Repr

/-- The constructor `VariableInfo(var)` of lines 34 and 60. -/
def VariableInfo.ofVariable (var : Variable) : VariableInfo :=
  { tmeta := var.tmeta, requires_grad := var.requires_grad, is_empty := false }

/-- The constructor `VariableInfo()` of line 63: the absent placeholder. -/
def VariableInfo.placeholder : VariableInfo :=
  { tmeta := 0, requires_grad := false, is_empty := true }

/-- Modelled from the spec: `VariableInfo::zeros` is library code outside `src/`.
It synthesizes the zero value described by the record's metadata (shape/dtype).
The token of the fresh tensor is read nowhere in this file and is set to `0`. -/
def VariableInfo.zeros (info : VariableInfo) : Variable :=
  .tensor { impl := 0, tmeta := info.tmeta, requires_grad := false,
            grad_fn := none, zero_filled := true }

/-- Modelled from the spec: `torch::autograd::SavedVariable` is declared outside
`src/`. It holds the saved value and the flag "is this node's own output"; the
default-constructed one (line 200) is the empty sentinel. -/
structure SavedVariable where
  data : Variable
  is_output : Bool
  deriving DecidableEq, Repr

/-- The constructor `SavedVariable()` of line 200. -/
def SavedVariable.empty : SavedVariable :=
  { data := .undefined, is_output := false }

/-- Modelled from the spec: `SavedVariable::unpack(saved_for)` is library code
outside `src/`. A value flagged as the node's own output is reconstructed via
the node (its producer is set to `saved_for`); any other value is returned as
stored; the empty sentinel unpacks to the undefined tensor. -/
def SavedVariable.unpack (sv : SavedVariable) (saved_for : Nat) : Variable :=
  match sv.data with
  | .undefined => .undefined
  | .tensor t =>
    if sv.is_output then .tensor { t with grad_fn := some saved_for } else .tensor t

/-! ## Errors -/

/-- The failures of this file. `GradientArityMismatch` is the `runtime_error` of
line 124, `SpuriousGradient` the one of line 138, `UseAfterRelease` the
`TORCH_CHECK` of line 208 (`ERR_BACKWARD_TWICE`), `NodeDisposed` the
`TORCH_INTERNAL_ASSERT(ptr)` of line 212, `closure` any exception thrown by a
user closure or by the library, and `OutOfRange` an `operator[]` past the end of
the named vector. -/
inductive Error where
  | GradientArityMismatch (name : String) (expected got : Nat)
  | SpuriousGradient (name : String) (position : Nat)
  | UseAfterRelease
  | NodeDisposed
  | closure (code : Nat)
  | OutOfRange (vec : String) (index : Nat)
  deriving DecidableEq, Repr

/-- The text the exception carries: lines 120-123 and 135-137 for the two
`runtime_error`s; the other texts are stand-ins for library strings. -/
def Error.what : Error → String
  | .GradientArityMismatch name expected got =>
    "function " ++ name ++ " returned an incorrect number of gradients (expected "
      ++ toString expected ++ ", got " ++ toString got ++ ")"
  | .SpuriousGradient name position =>
    "function " ++ name ++ " returned a gradient different that is defined at position "
      ++ toString position ++ ", but the corresponding forward input was not a Variable"
  | .UseAfterRelease => "ERR_BACKWARD_TWICE"
  | .NodeDisposed => "ptr INTERNAL ASSERT FAILED"
  | .closure code => "closure error " ++ toString code
  | .OutOfRange vec index => vec ++ "[" ++ toString index ++ "] out of range"

/-! ## The context -/

/-- The class `TensorlistAutogradContext`. `grad_fn_` is the weak reference to the
owning node, kept as what `grad_fn_.lock()` yields. -/
structure TensorlistAutogradContext where
  to_save_ : variable_list
  saved_variables_ : List SavedVariable
  dirty_inputs_ : Finset (Option Nat)
  non_differentiable_ : Finset (Option Nat)
  has_freed_buffers_ : Bool
  grad_fn_ : Option Nat

/-- A freshly constructed context. -/
def TensorlistAutogradContext.init : TensorlistAutogradContext :=
  { to_save_ := [], saved_variables_ := [], dirty_inputs_ := ∅,
    non_differentiable_ := ∅, has_freed_buffers_ := false, grad_fn_ := none }

/-- Lines 178-181. -/
def TensorlistAutogradContext.save_for_backward (ctx : TensorlistAutogradContext)
    (to_save : variable_list) : TensorlistAutogradContext :=
  { ctx with to_save_ := to_save }

/-- Lines 185-204. -/
def TensorlistAutogradContext.save_variables (ctx : TensorlistAutogradContext) :
    TensorlistAutogradContext :=
  let ptr := ctx.grad_fn_
  { ctx with
    saved_variables_ := ctx.to_save_.map (fun var =>
      if var.defined then
        let is_output := decide (var.grad_fn = ptr)
        { data := var, is_output := is_output }
      else SavedVariable.empty)
    to_save_ := [] }

/-- Lines 206-218. -/
def TensorlistAutogradContext.get_saved_variables (ctx : TensorlistAutogradContext) :
    Except Error variable_list :=
  if ctx.has_freed_buffers_ then .error .UseAfterRelease
  else
    match ctx.grad_fn_ with
    | none => .error .NodeDisposed
    | some ptr => .ok (ctx.saved_variables_.map (fun var => var.unpack ptr))

/-- Lines 220-228. -/
def TensorlistAutogradContext.mark_dirty (ctx : TensorlistAutogradContext)
    (inputs : variable_list) : TensorlistAutogradContext :=
  { ctx with dirty_inputs_ := (inputs.map Variable.unsafeGetTensorImpl).toFinset }

/-- Lines 230-238. -/
def TensorlistAutogradContext.mark_non_differentiable (ctx : TensorlistAutogradContext)
    (outputs : variable_list) : TensorlistAutogradContext :=
  { ctx with non_differentiable_ := (outputs.map Variable.unsafeGetTensorImpl).toFinset }

/-- Lines 240-243. -/
def TensorlistAutogradContext.get_dirty (ctx : TensorlistAutogradContext) :
    Finset (Option Nat) :=
  ctx.dirty_inputs_

/-- Lines 245-248. -/
def TensorlistAutogradContext.get_non_differentiable (ctx : TensorlistAutogradContext) :
    Finset (Option Nat) :=
  ctx.non_differentiable_

/-! ## The node -/

/-- A user closure `(TensorlistAutogradContext*, variable_list) -> variable_list`:
it returns a list or throws, and leaves the context it was handed in some state. -/
abbrev Closure :=
  TensorlistAutogradContext → variable_list →
    Except Error variable_list × TensorlistAutogradContext

/-- The class `TensorlistNode`; `addr` is the address of the object. -/
structure TensorlistNode where
  addr : Nat
  backward_ : Closure
  is_variable_input_ : List Bool
  input_info_ : List VariableInfo
  output_info_ : List VariableInfo
  ctx_ : TensorlistAutogradContext

/-- The method `name()` the node inherits from the library class `Node`: the name
of the node class. -/
def TensorlistNode.name (_self : TensorlistNode) : String := "TensorlistNode"

/-- Lines 162-166. -/
def TensorlistNode.release_variables (self : TensorlistNode) : TensorlistNode :=
  { self with ctx_ := { self.ctx_ with saved_variables_ := [], has_freed_buffers_ := true } }

/-- Lines 168-171. -/
def TensorlistNode.save_variables_to_ctx (self : TensorlistNode) : TensorlistNode :=
  { self with ctx_ := self.ctx_.save_variables }

/-- Lines 173-176. -/
def TensorlistNode.set_ctx_grad_fn (self : TensorlistNode) (node : Option Nat) :
    TensorlistNode :=
  { self with ctx_ := { self.ctx_ with grad_fn_ := node } }

/-! ## `TensorlistNode::apply` (runBackward) -/

/-- Lines 83-96: the list handed to the backward closure. The loop runs over the
slots `inputs[i]`, `i` counting from the first argument; the second component
lists, in call order, the records whose `zeros` the loop evaluated. -/
def backward_inputs_loop (output_info_ : List VariableInfo) :
    Nat → variable_list → Except Error variable_list × List VariableInfo
  | _, [] => (.ok [], [])
  | i, v :: rest =>
    if v.defined then
      let r := backward_inputs_loop output_info_ (i + 1) rest
      (r.1.map (fun backward_inputs => v :: backward_inputs), r.2)
    else
      match output_info_[i]? with
      | none => (.error (.OutOfRange "output_info_" i), [])
      | some info =>
        let r := backward_inputs_loop output_info_ (i + 1) rest
        (r.1.map (fun backward_inputs => info.zeros :: backward_inputs), info :: r.2)

/-- Lines 83-96 on a node. -/
def TensorlistNode.backward_inputs (self : TensorlistNode) (inputs : variable_list) :
    Except Error variable_list × List VariableInfo :=
  backward_inputs_loop self.output_info_ 0 inputs

/-- Lines 104-116: the result vector after the optional truncation, next to the
value of `num_outputs`. -/
def TensorlistNode.truncate (self : TensorlistNode) (outputs : variable_list) :
    variable_list × Nat :=
  let num_forward_inputs := self.is_variable_input_.length
  let num_outputs := outputs.length
  if num_outputs > num_forward_inputs then
    let all_undef := (outputs.drop num_forward_inputs).all (fun o => !o.defined)
    if all_undef then (outputs.take num_forward_inputs, num_forward_inputs)
    else (outputs, num_outputs)
  else (outputs, num_outputs)

/-- Lines 127-158: the loop over `outputs[i]`, entered at index `i` with the
entries from `i` on still to visit and `results` built so far. The second
component lists the records whose `zeros` the loop evaluated. -/
def results_loop (name : String) (is_variable_input_ : List Bool)
    (input_info_ : List VariableInfo) :
    Nat → variable_list → variable_list → Except Error variable_list × List VariableInfo
  | _, [], results => (.ok results, [])
  | i, out :: rest, results =>
    match is_variable_input_[i]? with
    | none => (.error (.OutOfRange "is_variable_input_" i), [])
    | some false =>
      if out.defined then (.error (.SpuriousGradient name (i + 1)), [])
      else results_loop name is_variable_input_ input_info_ (i + 1) rest results
    | some true =>
      if !out.defined then
        match input_info_[results.length]? with
        | none => (.error (.OutOfRange "input_info_" results.length), [])
        | some info =>
          if info.requires_grad then
            let r := results_loop name is_variable_input_ input_info_ (i + 1) rest
              (results ++ [info.zeros])
            (r.1, info :: r.2)
          else
            results_loop name is_variable_input_ input_info_ (i + 1) rest
              (results ++ [Variable.undefined])
      else
        results_loop name is_variable_input_ input_info_ (i + 1) rest (results ++ [out])

/-- Lines 100-159: everything `apply` does with the list `outputs` the backward
closure returned. -/
def TensorlistNode.reconcile (self : TensorlistNode) (outputs : variable_list) :
    Except Error variable_list × List VariableInfo :=
  let num_forward_inputs := self.is_variable_input_.length
  let t := self.truncate outputs
  if t.2 ≠ num_forward_inputs then
    (.error (.GradientArityMismatch self.name num_forward_inputs t.2), [])
  else
    results_loop self.name self.is_variable_input_ self.input_info_ 0 t.1 []

/-- What a call of `TensorlistNode::apply` leaves behind: the returned list or the
exception, the node afterwards, and the records whose `zeros` the call itself
evaluated (in call order). -/
structure ApplyOutcome where
  result : Except Error variable_list
  node : TensorlistNode
  zeros_calls : List VariableInfo

/-- Lines 79-160, the entry point the engine calls (runBackward). -/
def TensorlistNode.apply (self : TensorlistNode) (inputs : variable_list) : ApplyOutcome :=
  let filled := self.backward_inputs inputs
  match filled.1 with
  | .error e => { result := .error e, node := self, zeros_calls := filled.2 }
  | .ok backward_inputs =>
    let called := self.backward_ self.ctx_ backward_inputs
    let node := { self with ctx_ := called.2 }
    match called.1 with
    | .error e => { result := .error e, node := node, zeros_calls := filled.2 }
    | .ok outputs =>
      let r := self.reconcile outputs
      { result := r.1, node := node, zeros_calls := filled.2 ++ r.2 }

/-! ## `TensorlistFunction::apply` (invoke) -/

/-- The forward closure; its first argument is the value of the global
`GradMode` flag while it runs. -/
abbrev ForwardClosure :=
  Bool → TensorlistAutogradContext → variable_list →
    Except Error variable_list × TensorlistAutogradContext

/-- The library routine `_wrap_outputs(args, non_differentiable, dirty, raw_outputs,
cdata, jvp_fn)`, taken as a parameter: it returns one optional value per wrapped
output, or throws. -/
abbrev WrapOutputs :=
  variable_list → Finset (Option Nat) → Finset (Option Nat) → List (Option Variable) →
    Option Nat → Except Error (List (Option Variable))

/-- The library routine `to_optional`. -/
def to_optional (outputs : variable_list) : List (Option Variable) :=
  outputs.map some

/-- Modelled from the spec: `to_output_type` is library code outside `src/`. The
wrapped outputs are returned in the same multiplicity, an absent one as the
undefined value. -/
def to_output_type (wrapped_outputs : List (Option Variable)) : variable_list :=
  wrapped_outputs.map (fun o => o.getD Variable.undefined)

/-- Modelled from the spec: the in-place effect of the library routine
`_wrap_outputs` (spec 4.1, steps 5 and 6). The routine sets the producer of an
output on the tensor itself, so afterwards every handle to a tensor that is among
the wrapped outputs shows the state the wrapped output shows; a handle to any
other tensor is unchanged. Tensors are matched by ownership token. -/
def observe_wrapped (wrapped_outputs : List (Option Variable)) (v : Variable) : Variable :=
  match wrapped_outputs.find? (fun o =>
      match o with
      | some w => w.defined && decide (w.unsafeGetTensorImpl = v.unsafeGetTensorImpl)
      | none => false) with
  | some (some w) => w
  | _ => v

/-- The context once `_wrap_outputs` has returned: the values waiting in the
to-save list are handles, seen in the state the wrapping left them in. -/
def TensorlistAutogradContext.after_wrap (ctx : TensorlistAutogradContext)
    (wrapped_outputs : List (Option Variable)) : TensorlistAutogradContext :=
  { ctx with to_save_ := ctx.to_save_.map (observe_wrapped wrapped_outputs) }

/-- Modelled from the spec: one output of the library routine `_wrap_outputs`
(spec 4.1, step 5). On an executable node the producer of a defined value is set
to the node; a value marked non-differentiable or aliased to a dirty input is
excluded from gradient flow and returned as it is. -/
def wrap_output (non_differentiable dirty_inputs : Finset (Option Nat)) (cdata : Option Nat)
    (v : Variable) : Variable :=
  match v, cdata with
  | .tensor t, some node =>
    if v.unsafeGetTensorImpl ∈ non_differentiable ∨ v.unsafeGetTensorImpl ∈ dirty_inputs then
      .tensor t
    else .tensor { t with grad_fn := some node, requires_grad := true }
  | _, _ => v

/-- Modelled from the spec: the library routine `_wrap_outputs` (spec 4.1, step 5),
which is outside `src/`: every raw output is wrapped, in order, and the routine
has no error path. -/
def wrap_outputs : WrapOutputs := fun _ non_differentiable dirty_inputs raw_outputs cdata =>
  .ok (raw_outputs.map (fun o => o.map (wrap_output non_differentiable dirty_inputs cdata)))

/-- Lines 56-65. -/
def output_info_loop (is_executable : Bool) : List (Option Variable) → List VariableInfo
  | [] => []
  | output :: rest =>
    match is_executable, output with
    | true, some value => VariableInfo.ofVariable value :: output_info_loop is_executable rest
    | true, none => VariableInfo.placeholder :: output_info_loop is_executable rest
    | false, _ => output_info_loop is_executable rest

/-- What a call of `TensorlistFunction::apply` leaves behind: the returned list or
the exception, the node it allocated, and the global `GradMode` flag afterwards. -/
structure InvokeOutcome where
  result : Except Error variable_list
  node : TensorlistNode
  grad_mode : Bool

/-- Lines 5-75, the forward entry point (invoke). `addr` is the address `new`
returns and `grad_mode` the global flag on entry. The edges of lines 25, 28 and
29 live in the engine's part of the node and are read nowhere in this file.
Tensor values are snapshots of shared tensors: what `_wrap_outputs` changes in
place (line 48) is carried to the handles the context holds by `after_wrap`
before line 69 reads them. -/
def TensorlistFunction.apply (addr : Nat) (grad_mode : Bool) (_wrap_outputs : WrapOutputs)
    (args : variable_list) (forward : ForwardClosure) (backward : Closure) :
    InvokeOutcome :=
  let node : TensorlistNode :=
    { addr := addr, backward_ := backward, is_variable_input_ := [], input_info_ := [],
      output_info_ := [], ctx_ := TensorlistAutogradContext.init }
  let num_inputs := args.length
  let node := { node with is_variable_input_ := List.replicate num_inputs true }
  let is_executable := grad_mode && any_variable_requires_grad args
  let node := node.set_ctx_grad_fn (some addr)
  let node := { node with input_info_ := args.map VariableInfo.ofVariable }
  -- the guard of line 39 switches the flag off for the call and restores it after
  let called := forward false node.ctx_ args
  let node := { node with ctx_ := called.2 }
  match called.1 with
  | .error e => { result := .error e, node := node, grad_mode := grad_mode }
  | .ok outputs =>
    match _wrap_outputs args node.ctx_.get_non_differentiable node.ctx_.get_dirty
        (to_optional outputs) (if is_executable then some addr else none) with
    | .error e => { result := .error e, node := node, grad_mode := grad_mode }
    | .ok wrapped_outputs =>
      -- the routine has set producers in place; the handles in the context show it
      let node := { node with ctx_ := node.ctx_.after_wrap wrapped_outputs }
      let node := { node with output_info_ := output_info_loop is_executable wrapped_outputs }
      let node := if is_executable then node.save_variables_to_ctx else node
      { result := .ok (to_output_type wrapped_outputs), node := node, grad_mode := grad_mode }

/-! ## Sequences of context and node operations -/

/-- One call on a node or on its context. -/
inductive Op where
  | save_for_backward (to_save : variable_list)
  | save_variables
  | get_saved_variables
  | mark_dirty (inputs : variable_list)
  | mark_non_differentiable (outputs : variable_list)
  | release_variables

/-- The node after one call; `get_saved_variables` is a `const` method. -/
def Op.run (node : TensorlistNode) : Op → TensorlistNode
  | .save_for_backward to_save => { node with ctx_ := node.ctx_.save_for_backward to_save }
  | .save_variables => node.save_variables_to_ctx
  | .get_saved_variables => node
  | .mark_dirty inputs => { node with ctx_ := node.ctx_.mark_dirty inputs }
  | .mark_non_differentiable outputs =>
    { node with ctx_ := node.ctx_.mark_non_differentiable outputs }
  | .release_variables => node.release_variables

/-- The node after a sequence of calls, first call first. -/
def runOps (node : TensorlistNode) (ops : List Op) : TensorlistNode :=
  ops.foldl Op.run node

/-! ## Entry-wise descriptions used in the statements -/

/-- One slot of the list handed to the backward closure: the slot itself when it
is defined, the zero of the matching OutputRecord when it is not. -/
def fill_slot (v : Variable) (info : VariableInfo) : Variable :=
  if v.defined then v else info.zeros

/-- One entry of the result at a differentiable-value position: the returned
gradient when it is defined, else the zero of the record when the input required
differentiation, else the undefined value. -/
def pick_gradient (out : Variable) (info : VariableInfo) : Variable :=
  if out.defined then out
  else if info.requires_grad then info.zeros else Variable.undefined

/-- The node `TensorlistFunction::apply` allocated, seen at a later time: only its
context changes after construction, and `ctx` is the context it holds then. -/
def builtNode (addr : Nat) (grad_mode : Bool) (w : WrapOutputs) (args : variable_list)
    (fwd : ForwardClosure) (bwd : Closure) (ctx : TensorlistAutogradContext) :
    TensorlistNode :=
  { (TensorlistFunction.apply addr grad_mode w args fwd bwd).node with ctx_ := ctx }

/-! ## Sample values -/

/-- A leaf tensor with token `impl`. -/
def sampleTensor (impl : Nat) (requires_grad : Bool) : Variable :=
  .tensor { impl := impl, tmeta := 7, requires_grad := requires_grad, grad_fn := none,
            zero_filled := false }

/-- A wrapping routine that attaches the producer to every defined output. -/
def sampleWrap : WrapOutputs := fun _ _ _ raw_outputs cdata =>
  .ok (raw_outputs.map (fun o => o.map (fun v =>
    match v with
    | .undefined => Variable.undefined
    | .tensor t => .tensor { t with grad_fn := cdata, requires_grad := cdata.isSome })))

/-- A forward closure: saves its arguments and returns one fresh tensor. -/
def sampleForward : ForwardClosure := fun _ ctx args =>
  (.ok [sampleTensor 100 false], ctx.save_for_backward args)

/-- A backward closure that returns a fixed list. -/
def constBackward (outputs : variable_list) : Closure := fun ctx _ => (.ok outputs, ctx)

/-- A backward closure that throws. -/
def failingBackward (e : Error) : Closure := fun ctx _ => (.error e, ctx)

/-- A backward closure that reads the saved variables and returns them. -/
def savedBackward : Closure := fun ctx _ => (ctx.get_saved_variables, ctx)

/-- Three inputs, the first two requiring differentiation. -/
def sampleArgs : variable_list :=
  [sampleTensor 1 true, sampleTensor 2 true, sampleTensor 3 false]

/-- Two gradients. -/
def g1 : Variable := sampleTensor 11 false

def g2 : Variable := sampleTensor 12 false

/-- The node built from `sampleArgs` whose closure defines gradients for the two
inputs that require differentiation only. -/
def sampleNode : TensorlistNode :=
  builtNode 1 true sampleWrap sampleArgs sampleForward
    (constBackward [g1, g2, Variable.undefined]) TensorlistAutogradContext.init

/-- A node whose second input is flagged as not a differentiable value. -/
def mixedNode (bwd : Closure) : TensorlistNode :=
  { addr := 2, backward_ := bwd, is_variable_input_ := [true, false, true],
    input_info_ := sampleArgs.map VariableInfo.ofVariable,
    output_info_ := [VariableInfo.ofVariable (sampleTensor 100 true)],
    ctx_ := TensorlistAutogradContext.init }

/-- The node `TensorlistFunction::apply` returns for `sampleArgs`, with the
context the forward call left; its closure reads the saved variables. -/
def liveNode : TensorlistNode :=
  (TensorlistFunction.apply 1 true sampleWrap sampleArgs sampleForward savedBackward).node

/-- The node built from `sampleArgs` whose closure leaves the gradients of the
second and third input undefined. -/
def sparseNode : TensorlistNode :=
  builtNode 1 true sampleWrap sampleArgs sampleForward
    (constBackward [g1, Variable.undefined, Variable.undefined])
    TensorlistAutogradContext.init

/-- The context the forward closure is handed (lines 11 and 27): freshly
constructed, with the back-reference set to the new node. -/
def forward_ctx (addr : Nat) : TensorlistAutogradContext :=
  { TensorlistAutogradContext.init with grad_fn_ := some addr }

/-- A forward closure that saves its arguments and then throws. -/
def failingForward (e : Error) : ForwardClosure := fun _ ctx args =>
  (.error e, ctx.save_for_backward args)

/-- A forward closure that returns one fresh tensor and saves it together with its
arguments. -/
def savingForward : ForwardClosure := fun _ ctx args =>
  (.ok [sampleTensor 100 false], ctx.save_for_backward (sampleTensor 100 false :: args))

/-- A forward closure whose output records the flag it observed (in `tmeta`). -/
def observingForward : ForwardClosure := fun grad_mode ctx args =>
  (.ok [Variable.tensor { impl := 100, tmeta := if grad_mode then 1 else 0,
                          requires_grad := false, grad_fn := none, zero_filled := false }],
   ctx.save_for_backward args)

/-- A context whose node has been destroyed, with two values waiting to be saved. -/
def disposedCtx : TensorlistAutogradContext :=
  { TensorlistAutogradContext.init with to_save_ := [g1, Variable.undefined] }

/-- The live node of `liveNode` after `save_for_backward` of a leaf, an undefined
value and one of the node's own outputs. -/
def savingNode : TensorlistNode :=
  Op.run liveNode (Op.save_for_backward
    [g1, Variable.undefined,
     Variable.tensor { impl := 100, tmeta := 7, requires_grad := true, grad_fn := some 1,
                       zero_filled := false }])

/-- The node `TensorlistFunction::apply` returns with the flag off: it is not
executable and has no OutputRecord. -/
def idleNode : TensorlistNode :=
  (TensorlistFunction.apply 1 false sampleWrap sampleArgs sampleForward
    (constBackward [g1, g2, Variable.undefined])).node

/-- The node built from `sampleArgs` whose closure defines a gradient for every
input, the third one (which did not require differentiation) included. -/
def fullNode : TensorlistNode :=
  builtNode 1 true sampleWrap sampleArgs sampleForward (constBackward [g1, g2, g1])
    TensorlistAutogradContext.init

/-! ## Lemmas on the two loops -/

theorem backward_inputs_loop_ok (infos : List VariableInfo) :
    ∀ (inputs : variable_list) (i : Nat), i + inputs.length ≤ infos.length →
      backward_inputs_loop infos i inputs =
        (.ok (List.zipWith fill_slot inputs (infos.drop i)),
         ((inputs.zip (infos.drop i)).filter (fun p => !p.1.defined)).map Prod.snd) := by
  intro inputs
  induction inputs with
  | nil => intro i _; simp [backward_inputs_loop]
  | cons v rest ih =>
    intro i h
    have hi : i < infos.length := by simp at h; omega
    have hdrop : infos.drop i = infos[i] :: infos.drop (i + 1) := List.drop_eq_getElem_cons hi
    have hrest := ih (i + 1) (by simp at h; omega)
    have hget : infos[i]? = some infos[i] := List.getElem?_eq_getElem hi
    rw [hdrop]
    cases hv : v.defined
    · simp only [backward_inputs_loop, hv, hget, hrest]
      simp [fill_slot, hv, Except.map, -List.getElem_cons_drop]
    · simp only [backward_inputs_loop, hv, hrest]
      simp [fill_slot, hv, Except.map, -List.getElem_cons_drop]

theorem backward_inputs_loop_defined (infos : List VariableInfo) :
    ∀ (inputs : variable_list) (i : Nat), (∀ v ∈ inputs, v.defined = true) →
      backward_inputs_loop infos i inputs = (.ok inputs, []) := by
  intro inputs
  induction inputs with
  | nil => intro i _; simp [backward_inputs_loop]
  | cons v rest ih =>
    intro i h
    have hv : v.defined = true := h v (by simp)
    have hrest := ih (i + 1) (fun w hw => h w (by simp [hw]))
    simp [backward_inputs_loop, hv, hrest, Except.map]

theorem results_loop_all_true (name : String) (flags : List Bool) (infos : List VariableInfo)
    (hflags : ∀ b ∈ flags, b = true) :
    ∀ (rest : variable_list) (i : Nat) (results : variable_list),
      i + rest.length ≤ flags.length → results.length + rest.length ≤ infos.length →
      results_loop name flags infos i rest results =
        (.ok (results ++ List.zipWith pick_gradient rest (infos.drop results.length)),
         ((rest.zip (infos.drop results.length)).filter
            (fun p => !p.1.defined && p.2.requires_grad)).map Prod.snd) := by
  intro rest
  induction rest with
  | nil => intro i results _ _; simp [results_loop]
  | cons out rest ih =>
    intro i results hi hr
    simp only [List.length_cons] at hi hr
    have hi1 : i < flags.length := by omega
    have hflag : flags[i]? = some true := by
      rw [List.getElem?_eq_getElem hi1, hflags _ (List.getElem_mem hi1)]
    have hr1 : results.length < infos.length := by omega
    have hdrop : infos.drop results.length
        = infos[results.length] :: infos.drop (results.length + 1) :=
      List.drop_eq_getElem_cons hr1
    have hget : infos[results.length]? = some infos[results.length] :=
      List.getElem?_eq_getElem hr1
    have hnext : ∀ x : Variable,
        results_loop name flags infos (i + 1) rest (results ++ [x]) =
          (.ok ((results ++ [x]) ++ List.zipWith pick_gradient rest
                  (infos.drop (results.length + 1))),
           ((rest.zip (infos.drop (results.length + 1))).filter
              (fun p => !p.1.defined && p.2.requires_grad)).map Prod.snd) := by
      intro x
      have h := ih (i + 1) (results ++ [x]) (by omega) (by simp; omega)
      simpa using h
    rw [hdrop]
    cases hv : out.defined
    · cases hg : infos[results.length].requires_grad
      · simp only [results_loop, hflag, hv, hget, hg, hnext]
        simp [pick_gradient, hv, hg, -List.getElem_cons_drop]
      · simp only [results_loop, hflag, hv, hget, hg, hnext]
        simp [pick_gradient, hv, hg, -List.getElem_cons_drop]
    · simp only [results_loop, hflag, hv, hnext]
      simp [pick_gradient, hv, -List.getElem_cons_drop]

theorem results_loop_skip (name : String) (flags : List Bool) (infos : List VariableInfo) :
    ∀ (rest : variable_list) (i : Nat) (results : variable_list),
      i + rest.length ≤ flags.length → results.length + rest.length ≤ infos.length →
      (∀ k o, flags[i + k]? = some false → rest[k]? = some o → o.defined = false) →
      (results_loop name flags infos i rest results).1 =
        .ok (results ++ List.zipWith pick_gradient
          ((((flags.drop i).zip rest).filter (fun p => p.1)).map Prod.snd)
          (infos.drop results.length)) := by
  intro rest
  induction rest with
  | nil => intro i results _ _ _; simp [results_loop]
  | cons out rest ih =>
    intro i results hi hr hno
    simp only [List.length_cons] at hi hr
    have hi1 : i < flags.length := by omega
    have hfdrop : flags.drop i = flags[i] :: flags.drop (i + 1) :=
      List.drop_eq_getElem_cons hi1
    have hfget : flags[i]? = some flags[i] := List.getElem?_eq_getElem hi1
    have hno1 : ∀ k o, flags[i + 1 + k]? = some false → rest[k]? = some o →
        o.defined = false := by
      intro k o hf ho
      apply hno (k + 1) o
      · rw [← hf]; congr 1; omega
      · simpa using ho
    rw [hfdrop]
    cases hb : flags[i]
    · have hv : out.defined = false := hno 0 out (by simpa [hfget] using hb) (by simp)
      have h := ih (i + 1) results (by omega) (by omega) hno1
      rw [hb] at hfget
      simp only [results_loop, hfget, hv, Bool.not_false, Bool.not_true,
          Bool.false_eq_true, ↓reduceIte]
      simpa [-List.getElem_cons_drop] using h
    · have hr1 : results.length < infos.length := by omega
      have hdrop : infos.drop results.length
          = infos[results.length] :: infos.drop (results.length + 1) :=
        List.drop_eq_getElem_cons hr1
      have hget : infos[results.length]? = some infos[results.length] :=
        List.getElem?_eq_getElem hr1
      have hnext : ∀ x : Variable,
          (results_loop name flags infos (i + 1) rest (results ++ [x])).1 =
            .ok ((results ++ [x]) ++ List.zipWith pick_gradient
              ((((flags.drop (i + 1)).zip rest).filter (fun p => p.1)).map Prod.snd)
              (infos.drop (results.length + 1))) := by
        intro x
        have h := ih (i + 1) (results ++ [x]) (by omega) (by simp; omega) hno1
        simpa using h
      rw [hb] at hfget
      rw [hdrop]
      cases hv : out.defined
      · cases hg : infos[results.length].requires_grad
        · simp only [results_loop, hfget, hv, hget, hg, Bool.not_false, Bool.not_true,
            Bool.false_eq_true, ↓reduceIte]
          rw [hnext]
          simp [pick_gradient, hv, hg, -List.getElem_cons_drop]
        · simp only [results_loop, hfget, hv, hget, hg, Bool.not_false, Bool.not_true,
            Bool.false_eq_true, ↓reduceIte]
          rw [hnext]
          simp [pick_gradient, hv, hg, -List.getElem_cons_drop]
      · simp only [results_loop, hfget, hv, Bool.not_false, Bool.not_true,
          Bool.false_eq_true, ↓reduceIte]
        rw [hnext]
        simp [pick_gradient, hv, -List.getElem_cons_drop]

theorem results_loop_spurious (name : String) (flags : List Bool) (infos : List VariableInfo) :
    ∀ (rest : variable_list) (i k : Nat) (results : variable_list) (o : Variable),
      i + rest.length ≤ flags.length → results.length + rest.length ≤ infos.length →
      flags[i + k]? = some false → rest[k]? = some o → o.defined = true →
      (∀ j w, j < k → flags[i + j]? = some false → rest[j]? = some w → w.defined = false) →
      (results_loop name flags infos i rest results).1 =
        .error (.SpuriousGradient name (i + k + 1)) := by
  intro rest
  induction rest with
  | nil => intro i k results o _ _ _ ho; simp at ho
  | cons out rest ih =>
    intro i k results o hi hr hf ho hdef hfirst
    simp only [List.length_cons] at hi hr
    have hi1 : i < flags.length := by omega
    cases k with
    | zero =>
      simp at ho
      subst ho
      simp only [Nat.add_zero] at hf
      simp [results_loop, hf, hdef]
    | succ k =>
      have hf1 : flags[i + 1 + k]? = some false := by
        rw [← hf]; congr 1; omega
      have ho1 : rest[k]? = some o := by simpa using ho
      have hfirst1 : ∀ j w, j < k → flags[i + 1 + j]? = some false → rest[j]? = some w →
          w.defined = false := by
        intro j w hj hfj hw
        apply hfirst (j + 1) w (by omega)
        · rw [← hfj]; congr 1; omega
        · simpa using hw
      have hstep : ∀ res' : variable_list, res'.length ≤ results.length + 1 →
          (results_loop name flags infos (i + 1) rest res').1 =
            .error (.SpuriousGradient name (i + (k + 1) + 1)) := by
        intro res' hlen
        have h := ih (i + 1) k res' o (by omega) (by omega) hf1 ho1 hdef hfirst1
        rw [h]; congr 2; omega
      have hfget : flags[i]? = some flags[i] := List.getElem?_eq_getElem hi1
      cases hb : flags[i]
      · rw [hb] at hfget
        have hv : out.defined = false :=
          hfirst 0 out (by omega) (by simpa using hfget) (by simp)
        simp only [results_loop, hfget, hv, Bool.not_false, Bool.not_true,
          Bool.false_eq_true, ↓reduceIte]
        exact hstep results (by omega)
      · rw [hb] at hfget
        have hr1 : results.length < infos.length := by omega
        have hget : infos[results.length]? = some infos[results.length] :=
          List.getElem?_eq_getElem hr1
        cases hv : out.defined
        · cases hg : infos[results.length].requires_grad
          · simp only [results_loop, hfget, hv, hget, hg, Bool.not_false, Bool.not_true,
            Bool.false_eq_true, ↓reduceIte]
            exact hstep _ (by simp)
          · simp only [results_loop, hfget, hv, hget, hg, Bool.not_false, Bool.not_true,
            Bool.false_eq_true, ↓reduceIte]
            exact hstep _ (by simp)
        · simp only [results_loop, hfget, hv, Bool.not_false, Bool.not_true,
          Bool.false_eq_true, ↓reduceIte]
          exact hstep _ (by simp)

theorem results_loop_not_arity (name : String) (flags : List Bool)
    (infos : List VariableInfo) (n : String) (e g : Nat) :
    ∀ (rest : variable_list) (i : Nat) (results : variable_list),
      (results_loop name flags infos i rest results).1 ≠
        .error (.GradientArityMismatch n e g) := by
  intro rest
  induction rest with
  | nil => intro i results; simp [results_loop]
  | cons out rest ih =>
    intro i results
    unfold results_loop
    split
    · simp
    · split
      · simp
      · exact ih _ _
    · split
      · split
        · simp
        · split
          · exact ih _ _
          · exact ih _ _
      · exact ih _ _

theorem results_loop_defined_log (name : String) (flags : List Bool)
    (infos : List VariableInfo) :
    ∀ (rest : variable_list) (i : Nat) (results : variable_list),
      (∀ o ∈ rest, o.defined = true) →
      (results_loop name flags infos i rest results).2 = [] := by
  intro rest
  induction rest with
  | nil => intro i results _; simp [results_loop]
  | cons out rest ih =>
    intro i results h
    have hv : out.defined = true := h out (by simp)
    have hrest : ∀ o ∈ rest, o.defined = true := fun o ho => h o (by simp [ho])
    unfold results_loop
    split
    · rfl
    · simp [hv]
    · simp only [hv, Bool.not_true, Bool.false_eq_true, ↓reduceIte]
      exact ih _ _ hrest

/-! ## Lemmas on `truncate`, `reconcile` and `apply` -/

theorem mem_drop_iff_index {α : Type} (l : List α) (n : Nat) (a : α) :
    a ∈ l.drop n ↔ ∃ i, n ≤ i ∧ l[i]? = some a := by
  constructor
  · intro h
    obtain ⟨k, hk⟩ := List.mem_iff_getElem?.mp h
    rw [List.getElem?_drop] at hk
    exact ⟨n + k, by omega, hk⟩
  · rintro ⟨i, hi, h⟩
    apply List.mem_iff_getElem?.mpr
    refine ⟨i - n, ?_⟩
    rw [List.getElem?_drop]
    have : n + (i - n) = i := by omega
    rw [this]; exact h

theorem truncate_of_trailing_undefined (self : TensorlistNode) (outputs : variable_list)
    (hlen : self.is_variable_input_.length ≤ outputs.length)
    (htrail : ∀ o ∈ outputs.drop self.is_variable_input_.length, o.defined = false) :
    self.truncate outputs =
      (outputs.take self.is_variable_input_.length, self.is_variable_input_.length) := by
  unfold TensorlistNode.truncate
  by_cases h : outputs.length > self.is_variable_input_.length
  · have hall : (outputs.drop self.is_variable_input_.length).all
        (fun o => !o.defined) = true := by
      rw [List.all_eq_true]
      intro o ho
      simp [htrail o ho]
    simp [h, hall]
  · have heq : self.is_variable_input_.length = outputs.length := by omega
    rw [if_neg h, heq, List.take_length]

theorem reconcile_short (self : TensorlistNode) (outputs : variable_list)
    (hlen : outputs.length < self.is_variable_input_.length) :
    self.reconcile outputs =
      (.error (.GradientArityMismatch self.name self.is_variable_input_.length
        outputs.length), []) := by
  have hnot : ¬ outputs.length > self.is_variable_input_.length := by omega
  have hne : outputs.length ≠ self.is_variable_input_.length := by omega
  simp [TensorlistNode.reconcile, TensorlistNode.truncate, hnot, hne]

theorem reconcile_long_defined (self : TensorlistNode) (outputs : variable_list)
    (hlen : self.is_variable_input_.length < outputs.length) (o : Variable)
    (ho : o ∈ outputs.drop self.is_variable_input_.length) (hdef : o.defined = true) :
    self.reconcile outputs =
      (.error (.GradientArityMismatch self.name self.is_variable_input_.length
        outputs.length), []) := by
  have hgt : outputs.length > self.is_variable_input_.length := hlen
  have hne : outputs.length ≠ self.is_variable_input_.length := by omega
  have hall : (outputs.drop self.is_variable_input_.length).all
      (fun o => !o.defined) = false := by
    rw [Bool.eq_false_iff]
    intro hc
    rw [List.all_eq_true] at hc
    have := hc o ho
    simp [hdef] at this
  simp [TensorlistNode.reconcile, TensorlistNode.truncate, hgt, hne, hall]

theorem reconcile_truncated (self : TensorlistNode) (outputs : variable_list)
    (hlen : self.is_variable_input_.length ≤ outputs.length)
    (htrail : ∀ o ∈ outputs.drop self.is_variable_input_.length, o.defined = false) :
    self.reconcile outputs =
      results_loop self.name self.is_variable_input_ self.input_info_ 0
        (outputs.take self.is_variable_input_.length) [] := by
  simp [TensorlistNode.reconcile, truncate_of_trailing_undefined self outputs hlen htrail]

theorem apply_of_closure_ok (self : TensorlistNode) (inputs backward_inputs : variable_list)
    (log : List VariableInfo) (outputs : variable_list) (ctx : TensorlistAutogradContext)
    (hfill : self.backward_inputs inputs = (.ok backward_inputs, log))
    (hcall : self.backward_ self.ctx_ backward_inputs = (.ok outputs, ctx)) :
    self.apply inputs =
      { result := (self.reconcile outputs).1, node := { self with ctx_ := ctx },
        zeros_calls := log ++ (self.reconcile outputs).2 } := by
  simp [TensorlistNode.apply, hfill, hcall]

theorem apply_of_closure_error (self : TensorlistNode) (inputs backward_inputs : variable_list)
    (log : List VariableInfo) (e : Error) (ctx : TensorlistAutogradContext)
    (hfill : self.backward_inputs inputs = (.ok backward_inputs, log))
    (hcall : self.backward_ self.ctx_ backward_inputs = (.error e, ctx)) :
    self.apply inputs =
      { result := .error e, node := { self with ctx_ := ctx }, zeros_calls := log } := by
  simp [TensorlistNode.apply, hfill, hcall]

/-! ## The node `invoke` builds -/

theorem invoke_is_variable_input (addr : Nat) (g : Bool) (w : WrapOutputs)
    (args : variable_list) (fwd : ForwardClosure) (bwd : Closure) :
    (TensorlistFunction.apply addr g w args fwd bwd).node.is_variable_input_ =
      List.replicate args.length true := by
  unfold TensorlistFunction.apply
  simp only [TensorlistNode.set_ctx_grad_fn]
  split
  · rfl
  · split
    · rfl
    · split <;> rfl

theorem invoke_input_info (addr : Nat) (g : Bool) (w : WrapOutputs)
    (args : variable_list) (fwd : ForwardClosure) (bwd : Closure) :
    (TensorlistFunction.apply addr g w args fwd bwd).node.input_info_ =
      args.map VariableInfo.ofVariable := by
  unfold TensorlistFunction.apply
  simp only [TensorlistNode.set_ctx_grad_fn]
  split
  · rfl
  · split
    · rfl
    · split <;> rfl

theorem invoke_backward (addr : Nat) (g : Bool) (w : WrapOutputs)
    (args : variable_list) (fwd : ForwardClosure) (bwd : Closure) :
    (TensorlistFunction.apply addr g w args fwd bwd).node.backward_ = bwd := by
  unfold TensorlistFunction.apply
  simp only [TensorlistNode.set_ctx_grad_fn]
  split
  · rfl
  · split
    · rfl
    · split <;> rfl

theorem reconcile_all_true (self : TensorlistNode) (outputs : variable_list)
    (hflags : ∀ b ∈ self.is_variable_input_, b = true)
    (hinfo : self.is_variable_input_.length ≤ self.input_info_.length)
    (hlen : self.is_variable_input_.length ≤ outputs.length)
    (htrail : ∀ o ∈ outputs.drop self.is_variable_input_.length, o.defined = false) :
    self.reconcile outputs =
      (.ok (List.zipWith pick_gradient (outputs.take self.is_variable_input_.length)
              self.input_info_),
       (((outputs.take self.is_variable_input_.length).zip self.input_info_).filter
          (fun p => !p.1.defined && p.2.requires_grad)).map Prod.snd) := by
  rw [reconcile_truncated self outputs hlen htrail]
  have h := results_loop_all_true self.name self.is_variable_input_ self.input_info_ hflags
    (outputs.take self.is_variable_input_.length) 0 []
    (by simp [List.length_take]) (by simp [List.length_take]; omega)
  simpa using h

theorem builtNode_flags (addr : Nat) (g : Bool) (w : WrapOutputs) (args : variable_list)
    (fwd : ForwardClosure) (bwd : Closure) (ctx : TensorlistAutogradContext) :
    (builtNode addr g w args fwd bwd ctx).is_variable_input_ =
      List.replicate args.length true := by
  simp [builtNode, invoke_is_variable_input]

theorem builtNode_input_info (addr : Nat) (g : Bool) (w : WrapOutputs) (args : variable_list)
    (fwd : ForwardClosure) (bwd : Closure) (ctx : TensorlistAutogradContext) :
    (builtNode addr g w args fwd bwd ctx).input_info_ =
      args.map VariableInfo.ofVariable := by
  simp [builtNode, invoke_input_info]

theorem builtNode_reconcile_ok (addr : Nat) (g : Bool) (w : WrapOutputs)
    (args : variable_list) (fwd : ForwardClosure) (bwd : Closure)
    (ctx : TensorlistAutogradContext) (outputs : variable_list)
    (hlen : args.length ≤ outputs.length)
    (htrail : ∀ o ∈ outputs.drop args.length, o.defined = false) :
    (builtNode addr g w args fwd bwd ctx).reconcile outputs =
      (.ok (List.zipWith pick_gradient (outputs.take args.length)
              (args.map VariableInfo.ofVariable)),
       (((outputs.take args.length).zip (args.map VariableInfo.ofVariable)).filter
          (fun p => !p.1.defined && p.2.requires_grad)).map Prod.snd) := by
  have hf := builtNode_flags addr g w args fwd bwd ctx
  have hi := builtNode_input_info addr g w args fwd bwd ctx
  have h := reconcile_all_true (builtNode addr g w args fwd bwd ctx) outputs
    (by rw [hf]; intro b hb; exact (List.mem_replicate.mp hb).2)
    (by rw [hf, hi]; simp)
    (by rw [hf]; simpa using hlen)
    (by rw [hf]; simpa using htrail)
  rw [hf, hi] at h
  simpa using h

/-! ## Claims on `TensorlistNode::apply` -/

/-- C1. For a node built by `TensorlistFunction::apply` from `args` (N inputs), and a
list `outputs` of length M the backward closure returned without error,
`TensorlistNode::apply` fails with GradientArityMismatch if and only if M < N, or
M > N and some entry at an index >= N is defined; the error then carries the
node's name, expected N and got M, and its text is the one of lines 120-123. -/
theorem arity_mismatch_iff (addr : Nat) (g : Bool) (w : WrapOutputs) (args : variable_list)
    (fwd : ForwardClosure) (bwd : Closure) (ctx ctx1 : TensorlistAutogradContext)
    (inputs backward_inputs outputs : variable_list) (log : List VariableInfo)
    (hfill : (builtNode addr g w args fwd bwd ctx).backward_inputs inputs
      = (.ok backward_inputs, log))
    (hcall : bwd ctx backward_inputs = (.ok outputs, ctx1)) :
    ((∃ name expected got, ((builtNode addr g w args fwd bwd ctx).apply inputs).result
          = .error (.GradientArityMismatch name expected got)) ↔
      (outputs.length < args.length ∨
        (args.length < outputs.length ∧
          ∃ i o, args.length ≤ i ∧ outputs[i]? = some o ∧ o.defined = true))) ∧
    (∀ name expected got, ((builtNode addr g w args fwd bwd ctx).apply inputs).result
          = .error (.GradientArityMismatch name expected got) →
      name = (builtNode addr g w args fwd bwd ctx).name ∧ expected = args.length ∧
      got = outputs.length ∧
      (Error.GradientArityMismatch name expected got).what =
        "function " ++ (builtNode addr g w args fwd bwd ctx).name
          ++ " returned an incorrect number of gradients (expected "
          ++ toString args.length ++ ", got " ++ toString outputs.length ++ ")") := by
  have hb : (builtNode addr g w args fwd bwd ctx).backward_ = bwd := by
    simp [builtNode, invoke_backward]
  have hf := builtNode_flags addr g w args fwd bwd ctx
  have hlenf : (builtNode addr g w args fwd bwd ctx).is_variable_input_.length
      = args.length := by rw [hf]; simp
  have happ := apply_of_closure_ok (builtNode addr g w args fwd bwd ctx) inputs
    backward_inputs log outputs ctx1 hfill (by rw [hb]; exact hcall)
  have hres : ((builtNode addr g w args fwd bwd ctx).apply inputs).result
      = ((builtNode addr g w args fwd bwd ctx).reconcile outputs).1 := by rw [happ]
  have hcases : (outputs.length < args.length ∨
        (args.length < outputs.length ∧
          ∃ i o, args.length ≤ i ∧ outputs[i]? = some o ∧ o.defined = true)) ∨
      (args.length ≤ outputs.length ∧ ∀ o ∈ outputs.drop args.length, o.defined = false) := by
    by_cases h1 : outputs.length < args.length
    · exact Or.inl (Or.inl h1)
    · by_cases h2 : ∃ o ∈ outputs.drop args.length, o.defined = true
      · obtain ⟨o, ho, hd⟩ := h2
        obtain ⟨i, hi, hget⟩ := (mem_drop_iff_index outputs args.length o).mp ho
        have hlt : i < outputs.length := by
          have := (List.getElem?_eq_some_iff.mp hget).1
          exact this
        exact Or.inl (Or.inr ⟨by omega, i, o, hi, hget, hd⟩)
      · refine Or.inr ⟨by omega, ?_⟩
        intro o ho
        cases hd : o.defined
        · rfl
        · exact absurd ⟨o, ho, hd⟩ h2
  have hbad : (outputs.length < args.length ∨
        (args.length < outputs.length ∧
          ∃ i o, args.length ≤ i ∧ outputs[i]? = some o ∧ o.defined = true)) →
      ((builtNode addr g w args fwd bwd ctx).apply inputs).result =
        .error (.GradientArityMismatch (builtNode addr g w args fwd bwd ctx).name
          args.length outputs.length) := by
    intro h
    rcases h with h | ⟨h, i, o, hi, hget, hd⟩
    · rw [hres, reconcile_short _ _ (by rw [hlenf]; exact h), hlenf]
    · have hm : o ∈ outputs.drop
          (builtNode addr g w args fwd bwd ctx).is_variable_input_.length := by
        rw [hlenf]; exact (mem_drop_iff_index outputs args.length o).mpr ⟨i, hi, hget⟩
      rw [hres, reconcile_long_defined _ _ (by rw [hlenf]; exact h) o hm hd, hlenf]
  have hgood : (args.length ≤ outputs.length ∧
        ∀ o ∈ outputs.drop args.length, o.defined = false) →
      ∃ res, ((builtNode addr g w args fwd bwd ctx).apply inputs).result = .ok res := by
    rintro ⟨h1, h2⟩
    rw [hres, builtNode_reconcile_ok addr g w args fwd bwd ctx outputs h1 h2]
    exact ⟨_, rfl⟩
  constructor
  · constructor
    · rintro ⟨name, expected, got, he⟩
      rcases hcases with h | h
      · exact h
      · obtain ⟨res, hr⟩ := hgood h
        rw [hr] at he
        cases he
    · intro h
      exact ⟨_, _, _, hbad h⟩
  · intro name expected got he
    rcases hcases with h | h
    · rw [hbad h] at he
      injection he with he
      injection he with h1 h2 h3
      subst h1 h2 h3
      exact ⟨rfl, rfl, rfl, rfl⟩
    · obtain ⟨res, hr⟩ := hgood h
      rw [hr] at he
      cases he

/-- Witness of C1: three inputs, the closure returns two gradients. -/
theorem arity_mismatch_iff_witness :
    ((builtNode 1 true sampleWrap sampleArgs sampleForward (constBackward [g1, g2])
        TensorlistAutogradContext.init).apply [Variable.undefined]).result
      = .error (.GradientArityMismatch "TensorlistNode" 3 2) ∧
    ((∃ name expected got,
        ((builtNode 1 true sampleWrap sampleArgs sampleForward (constBackward [g1, g2])
          TensorlistAutogradContext.init).apply [Variable.undefined]).result
          = .error (.GradientArityMismatch name expected got)) ↔
      ([g1, g2].length < sampleArgs.length ∨
        (sampleArgs.length < [g1, g2].length ∧
          ∃ i o, sampleArgs.length ≤ i ∧ [g1, g2][i]? = some o ∧ o.defined = true))) :=
  ⟨rfl,
   (arity_mismatch_iff 1 true sampleWrap sampleArgs sampleForward (constBackward [g1, g2])
      TensorlistAutogradContext.init TensorlistAutogradContext.init [Variable.undefined]
      [(VariableInfo.ofVariable (sampleTensor 100 true)).zeros] [g1, g2]
      [VariableInfo.ofVariable (sampleTensor 100 true)] rfl rfl).1⟩

/-- C2. For every node (N = number of per-input flags): when the backward closure
returns a list longer than N whose entries at every index >= N are undefined,
`TensorlistNode::apply` does not fail on arity and its result, the zeros it
synthesizes and the context it leaves are exactly those of the same call with a
closure `alt` that returns only the first N entries. No condition on which
inputs are differentiable is used: the truncation is positional. -/
theorem truncation_positional (node : TensorlistNode) (alt : Closure)
    (inputs backward_inputs outputs : variable_list) (log : List VariableInfo)
    (ctx1 : TensorlistAutogradContext)
    (hfill : node.backward_inputs inputs = (.ok backward_inputs, log))
    (hcall : node.backward_ node.ctx_ backward_inputs = (.ok outputs, ctx1))
    (halt : alt node.ctx_ backward_inputs
      = (.ok (outputs.take node.is_variable_input_.length), ctx1))
    (hlen : node.is_variable_input_.length < outputs.length)
    (htrail : ∀ i o, node.is_variable_input_.length ≤ i → outputs[i]? = some o →
      o.defined = false) :
    (∀ name expected got, (node.apply inputs).result
        ≠ .error (.GradientArityMismatch name expected got)) ∧
    (node.apply inputs).result = ({ node with backward_ := alt }.apply inputs).result ∧
    (node.apply inputs).zeros_calls
      = ({ node with backward_ := alt }.apply inputs).zeros_calls ∧
    (node.apply inputs).node.ctx_ = ({ node with backward_ := alt }.apply inputs).node.ctx_ := by
  have htrail1 : ∀ o ∈ outputs.drop node.is_variable_input_.length, o.defined = false := by
    intro o ho
    obtain ⟨i, hi, hget⟩ := (mem_drop_iff_index _ _ o).mp ho
    exact htrail i o hi hget
  have h1 := apply_of_closure_ok node inputs backward_inputs log outputs ctx1 hfill hcall
  have h2 := apply_of_closure_ok { node with backward_ := alt } inputs backward_inputs log
    (outputs.take node.is_variable_input_.length) ctx1 hfill halt
  have hr1 := reconcile_truncated node outputs (by omega) htrail1
  have hr2 : TensorlistNode.reconcile { node with backward_ := alt }
      (outputs.take node.is_variable_input_.length) = node.reconcile outputs := by
    have h := reconcile_truncated { node with backward_ := alt }
      (outputs.take node.is_variable_input_.length)
      (by simp [List.length_take]; omega)
      (by
        intro o ho
        rw [List.drop_eq_nil_of_le (by simp [List.length_take])] at ho
        cases ho)
    rw [h, hr1]
    simp [TensorlistNode.name, List.take_take]
  rw [h1, h2, hr2]
  refine ⟨?_, rfl, rfl, rfl⟩
  intro name expected got
  simp only [hr1]
  exact results_loop_not_arity _ _ _ _ _ _ _ _ _

/-- Witness of C2: three inputs, five returned entries, the last two undefined. -/
theorem truncation_positional_witness :
    ((builtNode 1 true sampleWrap sampleArgs sampleForward
        (constBackward [g1, Variable.undefined, g2, Variable.undefined, Variable.undefined])
        TensorlistAutogradContext.init).apply [Variable.undefined]).result
      = .ok [g1, (VariableInfo.ofVariable (sampleTensor 2 true)).zeros, g2] ∧
    ((builtNode 1 true sampleWrap sampleArgs sampleForward
        (constBackward [g1, Variable.undefined, g2, Variable.undefined, Variable.undefined])
        TensorlistAutogradContext.init).apply [Variable.undefined]).result
      = (TensorlistNode.apply
          { builtNode 1 true sampleWrap sampleArgs sampleForward
              (constBackward [g1, Variable.undefined, g2, Variable.undefined,
                Variable.undefined])
              TensorlistAutogradContext.init with
            backward_ := constBackward [g1, Variable.undefined, g2] }
          [Variable.undefined]).result :=
  ⟨rfl,
   (truncation_positional
      (builtNode 1 true sampleWrap sampleArgs sampleForward
        (constBackward [g1, Variable.undefined, g2, Variable.undefined, Variable.undefined])
        TensorlistAutogradContext.init)
      (constBackward [g1, Variable.undefined, g2]) [Variable.undefined]
      [(VariableInfo.ofVariable (sampleTensor 100 true)).zeros]
      [g1, Variable.undefined, g2, Variable.undefined, Variable.undefined]
      [VariableInfo.ofVariable (sampleTensor 100 true)] TensorlistAutogradContext.init
      rfl rfl rfl (by decide) (by
        intro i o hi hget
        have h3 : (builtNode 1 true sampleWrap sampleArgs sampleForward
          (constBackward [g1, Variable.undefined, g2, Variable.undefined,
            Variable.undefined]) TensorlistAutogradContext.init).is_variable_input_.length
            = 3 := rfl
        rw [h3] at hi
        match i, hi, hget with
        | 3, _, hget => simp at hget; subst hget; rfl
        | 4, _, hget => simp at hget; subst hget; rfl
        | (n + 5), _, hget => simp at hget)).2.1⟩

/-- C3. For a node built by `TensorlistFunction::apply` from `args` (N inputs), when
the list the backward closure returned has, after truncation, exactly N entries,
`TensorlistNode::apply` returns N entries, one per input position: the closure's
gradient unchanged where it is defined, the zero of that input's record where it
is undefined and the input required differentiation, the undefined value where
it is undefined and the input did not require differentiation. -/
theorem result_per_input (addr : Nat) (g : Bool) (w : WrapOutputs) (args : variable_list)
    (fwd : ForwardClosure) (bwd : Closure) (ctx ctx1 : TensorlistAutogradContext)
    (inputs backward_inputs outputs : variable_list) (log : List VariableInfo)
    (hfill : (builtNode addr g w args fwd bwd ctx).backward_inputs inputs
      = (.ok backward_inputs, log))
    (hcall : bwd ctx backward_inputs = (.ok outputs, ctx1))
    (hlen : args.length ≤ outputs.length)
    (htrail : ∀ i o, args.length ≤ i → outputs[i]? = some o → o.defined = false) :
    ∃ res, ((builtNode addr g w args fwd bwd ctx).apply inputs).result = .ok res ∧
      res.length = args.length ∧
      ∀ (i : Nat) (arg o : Variable), args[i]? = some arg → outputs[i]? = some o →
        (builtNode addr g w args fwd bwd ctx).input_info_[i]?
          = some (VariableInfo.ofVariable arg) ∧
        (o.defined = true → res[i]? = some o) ∧
        (o.defined = false → arg.requires_grad = true →
          res[i]? = some (VariableInfo.ofVariable arg).zeros ∧
          (VariableInfo.ofVariable arg).zeros.defined = true) ∧
        (o.defined = false → arg.requires_grad = false →
          res[i]? = some Variable.undefined) := by
  have hb : (builtNode addr g w args fwd bwd ctx).backward_ = bwd := by
    simp [builtNode, invoke_backward]
  have htrail1 : ∀ o ∈ outputs.drop args.length, o.defined = false := by
    intro o ho
    obtain ⟨i, hi, hget⟩ := (mem_drop_iff_index _ _ o).mp ho
    exact htrail i o hi hget
  have happ := apply_of_closure_ok (builtNode addr g w args fwd bwd ctx) inputs
    backward_inputs log outputs ctx1 hfill (by rw [hb]; exact hcall)
  have hrec := builtNode_reconcile_ok addr g w args fwd bwd ctx outputs hlen htrail1
  refine ⟨_, by rw [happ, hrec], ?_, ?_⟩
  · simp [List.length_zipWith, List.length_take]; omega
  · intro i arg o harg ho
    obtain ⟨hi, heq⟩ := List.getElem?_eq_some_iff.mp harg
    have hentry : (List.zipWith pick_gradient (outputs.take args.length)
        (args.map VariableInfo.ofVariable))[i]?
        = some (pick_gradient o (VariableInfo.ofVariable arg)) := by
      simp [List.getElem?_zipWith, List.getElem?_take, hi, harg, ho, heq]
    refine ⟨by rw [builtNode_input_info]; simp [harg], ?_, ?_, ?_⟩
    · intro hd
      rw [hentry]; simp [pick_gradient, hd]
    · intro hd hreq
      rw [hentry]
      constructor
      · simp [pick_gradient, hd, VariableInfo.ofVariable, hreq]
      · simp [VariableInfo.ofVariable, VariableInfo.zeros, Variable.defined]
    · intro hd hreq
      rw [hentry]
      simp [pick_gradient, hd, VariableInfo.ofVariable, hreq]

/-- Witness of C3: three inputs of which the first two require differentiation;
the closure defines gradients for those two positions only, and the result has
three slots, the third undefined. -/
theorem result_per_input_witness :
    (sampleNode.apply [sampleTensor 50 false]).result = .ok [g1, g2, Variable.undefined] ∧
    ∃ res, (sampleNode.apply [sampleTensor 50 false]).result = .ok res ∧
      res.length = sampleArgs.length ∧
      ∀ (i : Nat) (arg o : Variable), sampleArgs[i]? = some arg →
        [g1, g2, Variable.undefined][i]? = some o →
        sampleNode.input_info_[i]? = some (VariableInfo.ofVariable arg) ∧
        (o.defined = true → res[i]? = some o) ∧
        (o.defined = false → arg.requires_grad = true →
          res[i]? = some (VariableInfo.ofVariable arg).zeros ∧
          (VariableInfo.ofVariable arg).zeros.defined = true) ∧
        (o.defined = false → arg.requires_grad = false →
          res[i]? = some Variable.undefined) :=
  ⟨rfl,
   result_per_input 1 true sampleWrap sampleArgs sampleForward
     (constBackward [g1, g2, Variable.undefined]) TensorlistAutogradContext.init
     TensorlistAutogradContext.init [sampleTensor 50 false] [sampleTensor 50 false]
     [g1, g2, Variable.undefined] [] rfl rfl (by decide) (by
       intro i o hi hget
       have h3 : sampleArgs.length = 3 := rfl
       rw [h3] at hi
       match i, hi, hget with
       | (n + 3), _, hget => simp at hget)⟩

theorem kept_length (flags : List Bool) :
    ∀ (outs : variable_list), flags.length ≤ outs.length →
      (((flags.zip outs).filter (fun p => p.1)).map Prod.snd).length = flags.count true := by
  induction flags with
  | nil => intro outs _; simp
  | cons b flags ih =>
    intro outs h
    cases outs with
    | nil => simp at h
    | cons o outs =>
      have h1 := ih outs (by simpa using h)
      simp only [List.length_map] at h1
      cases b <;> simp [List.filter_cons, h1]

/-- C4. For every node whose closure returned a list that passes the arity check,
with one InputRecord per flag at least: if some position whose flag says "not a
differentiable value" has a defined gradient, `TensorlistNode::apply` fails with
SpuriousGradient, the error names the node and the first such position, counted
from 1 (so the position itself when no earlier one offends), with the text of
lines 135-137; if no such position has a defined gradient, every such position
is skipped: the result holds one entry per position flagged as a differentiable
value, in order, and no entry for the others. -/
theorem spurious_gradient (node : TensorlistNode)
    (inputs backward_inputs outputs : variable_list) (log : List VariableInfo)
    (ctx1 : TensorlistAutogradContext)
    (hfill : node.backward_inputs inputs = (.ok backward_inputs, log))
    (hcall : node.backward_ node.ctx_ backward_inputs = (.ok outputs, ctx1))
    (hinfo : node.is_variable_input_.length ≤ node.input_info_.length)
    (hlen : node.is_variable_input_.length ≤ outputs.length)
    (htrail : ∀ i o, node.is_variable_input_.length ≤ i → outputs[i]? = some o →
      o.defined = false) :
    (∀ (i : Nat) (o : Variable), node.is_variable_input_[i]? = some false →
      outputs[i]? = some o → o.defined = true →
      ∃ p : Nat, p ≤ i ∧ node.is_variable_input_[p]? = some false ∧
        (∃ q : Variable, outputs[p]? = some q ∧ q.defined = true) ∧
        (∀ (j : Nat) (v : Variable), j < p → node.is_variable_input_[j]? = some false →
          outputs[j]? = some v → v.defined = false) ∧
        (node.apply inputs).result = .error (.SpuriousGradient node.name (p + 1)) ∧
        (Error.SpuriousGradient node.name (p + 1)).what =
          "function " ++ node.name
            ++ " returned a gradient different that is defined at position "
            ++ toString (p + 1)
            ++ ", but the corresponding forward input was not a Variable") ∧
    ((∀ (i : Nat) (o : Variable), node.is_variable_input_[i]? = some false →
        outputs[i]? = some o → o.defined = false) →
      (node.apply inputs).result = .ok (List.zipWith pick_gradient
        (((node.is_variable_input_.zip
            (outputs.take node.is_variable_input_.length)).filter
              (fun p => p.1)).map Prod.snd)
        node.input_info_) ∧
      (List.zipWith pick_gradient
        (((node.is_variable_input_.zip
            (outputs.take node.is_variable_input_.length)).filter
              (fun p => p.1)).map Prod.snd)
        node.input_info_).length = node.is_variable_input_.count true) := by
  have htrail1 : ∀ o ∈ outputs.drop node.is_variable_input_.length, o.defined = false := by
    intro o ho
    obtain ⟨i, hi, hget⟩ := (mem_drop_iff_index _ _ o).mp ho
    exact htrail i o hi hget
  have happ := apply_of_closure_ok node inputs backward_inputs log outputs ctx1 hfill hcall
  have hrec := reconcile_truncated node outputs hlen htrail1
  have hres : (node.apply inputs).result
      = (results_loop node.name node.is_variable_input_ node.input_info_ 0
          (outputs.take node.is_variable_input_.length) []).1 := by
    rw [happ, hrec]
  have htake : ∀ k, k < node.is_variable_input_.length →
      (outputs.take node.is_variable_input_.length)[k]? = outputs[k]? := by
    intro k hk
    simp [List.getElem?_take, hk]
  have hflag_lt : ∀ k b, node.is_variable_input_[k]? = some b →
      k < node.is_variable_input_.length := by
    intro k b h
    exact (List.getElem?_eq_some_iff.mp h).1
  have hlt : (outputs.take node.is_variable_input_.length).length
      = node.is_variable_input_.length := by
    simp [List.length_take]; omega
  constructor
  · intro i o hflag ho hdef
    classical
    have hex : ∃ p : Nat, node.is_variable_input_[p]? = some false ∧
        ∃ q : Variable, outputs[p]? = some q ∧ q.defined = true := ⟨i, hflag, o, ho, hdef⟩
    obtain ⟨hpf, q, hq, hqd⟩ := Nat.find_spec hex
    have hmin : ∀ (j : Nat) (v : Variable), j < Nat.find hex →
        node.is_variable_input_[j]? = some false → outputs[j]? = some v →
        v.defined = false := by
      intro j v hj hjf hjv
      cases hd : v.defined
      · rfl
      · exact absurd ⟨hjf, v, hjv, hd⟩ (Nat.find_min hex hj)
    refine ⟨Nat.find hex, Nat.find_min' hex ⟨hflag, o, ho, hdef⟩, hpf, ⟨q, hq, hqd⟩,
      hmin, ?_, rfl⟩
    rw [hres]
    have h := results_loop_spurious node.name node.is_variable_input_ node.input_info_
      (outputs.take node.is_variable_input_.length) 0 (Nat.find hex) [] q
      (by rw [hlt]; omega) (by rw [hlt]; simpa using hinfo)
      (by simpa using hpf)
      (by rw [htake _ (hflag_lt _ _ hpf)]; exact hq) hqd
      (by
        intro j v hj hjf hjv
        have hjf1 : node.is_variable_input_[j]? = some false := by simpa using hjf
        rw [htake _ (hflag_lt _ _ hjf1)] at hjv
        exact hmin j v hj hjf1 hjv)
    simpa using h
  · intro hno
    have h := results_loop_skip node.name node.is_variable_input_ node.input_info_
      (outputs.take node.is_variable_input_.length) 0 []
      (by rw [hlt]; omega) (by rw [hlt]; simpa using hinfo)
      (by
        intro k o hkf hko
        have hkf1 : node.is_variable_input_[k]? = some false := by simpa using hkf
        rw [htake _ (hflag_lt _ _ hkf1)] at hko
        exact hno k o hkf1 hko)
    constructor
    · rw [hres, h]; simp
    · rw [List.length_zipWith, kept_length _ _ (by rw [hlt])]
      have hc : node.is_variable_input_.count true ≤ node.is_variable_input_.length :=
        List.count_le_length _ _
      omega

/-- Witness of C4: the second of three positions is flagged as not a
differentiable value and the closure defines a gradient there. -/
theorem spurious_gradient_witness :
    ((mixedNode (constBackward [g1, g2, Variable.undefined])).apply
        [sampleTensor 50 false]).result
      = .error (.SpuriousGradient "TensorlistNode" 2) ∧
    ∃ p : Nat, p ≤ 1 ∧
      (mixedNode (constBackward [g1, g2, Variable.undefined])).is_variable_input_[p]?
        = some false ∧
      (∃ q : Variable, [g1, g2, Variable.undefined][p]? = some q ∧ q.defined = true) ∧
      (∀ (j : Nat) (v : Variable), j < p →
        (mixedNode (constBackward [g1, g2, Variable.undefined])).is_variable_input_[j]?
          = some false →
        [g1, g2, Variable.undefined][j]? = some v → v.defined = false) ∧
      ((mixedNode (constBackward [g1, g2, Variable.undefined])).apply
          [sampleTensor 50 false]).result
        = .error (.SpuriousGradient
            (mixedNode (constBackward [g1, g2, Variable.undefined])).name (p + 1)) ∧
      (Error.SpuriousGradient
          (mixedNode (constBackward [g1, g2, Variable.undefined])).name (p + 1)).what =
        "function " ++ (mixedNode (constBackward [g1, g2, Variable.undefined])).name
          ++ " returned a gradient different that is defined at position "
          ++ toString (p + 1)
          ++ ", but the corresponding forward input was not a Variable" :=
  ⟨rfl,
   (spurious_gradient (mixedNode (constBackward [g1, g2, Variable.undefined]))
      [sampleTensor 50 false] [sampleTensor 50 false] [g1, g2, Variable.undefined] []
      TensorlistAutogradContext.init rfl rfl (by decide) (by decide) (by
        intro i o hi hget
        have h3 : (mixedNode (constBackward
          [g1, g2, Variable.undefined])).is_variable_input_.length = 3 := rfl
        rw [h3] at hi
        match i, hi, hget with
        | (n + 3), _, hget => simp at hget)).1 1 g2 rfl rfl rfl⟩

/-! ## Claims on the saved variables -/

theorem run_keeps_freed (node : TensorlistNode) (op : Op)
    (h : node.ctx_.has_freed_buffers_ = true) :
    (Op.run node op).ctx_.has_freed_buffers_ = true := by
  cases op <;>
    simp [Op.run, h, TensorlistAutogradContext.save_for_backward,
      TensorlistNode.save_variables_to_ctx, TensorlistAutogradContext.save_variables,
      TensorlistAutogradContext.mark_dirty, TensorlistAutogradContext.mark_non_differentiable,
      TensorlistNode.release_variables]

theorem runOps_keeps_freed (ops : List Op) :
    ∀ node : TensorlistNode, node.ctx_.has_freed_buffers_ = true →
      (runOps node ops).ctx_.has_freed_buffers_ = true := by
  induction ops with
  | nil => intro node h; simpa [runOps] using h
  | cons op ops ih =>
    intro node h
    have := ih (Op.run node op) (run_keeps_freed node op h)
    simpa [runOps] using this

/-- C5. After `release_variables()` the saved-value list is empty, and after any
further sequence of calls (save_for_backward, save_variables, get_saved_variables,
mark_dirty, mark_non_differentiable, release_variables) the buffers-freed flag is
still set and `get_saved_variables()` fails with UseAfterRelease. -/
theorem use_after_release (node : TensorlistNode) (ops : List Op) :
    node.release_variables.ctx_.saved_variables_ = [] ∧
    (runOps node.release_variables ops).ctx_.has_freed_buffers_ = true ∧
    (runOps node.release_variables ops).ctx_.get_saved_variables
      = .error .UseAfterRelease := by
  have h := runOps_keeps_freed ops node.release_variables rfl
  exact ⟨rfl, h, by simp [TensorlistAutogradContext.get_saved_variables, h]⟩

theorem unpack_saved (addr : Nat) (v : Variable) (h : v.grad_fn ≠ some addr) :
    SavedVariable.unpack
      (if v.defined then { data := v, is_output := decide (v.grad_fn = some addr) }
       else SavedVariable.empty) addr = v := by
  cases v with
  | undefined => simp [Variable.defined, SavedVariable.empty, SavedVariable.unpack]
  | tensor t => simp [Variable.defined, SavedVariable.unpack, h]

theorem runOps_get_saved (node : TensorlistNode) (k : Nat) :
    runOps node (List.replicate k Op.get_saved_variables) = node := by
  induction k with
  | zero => rfl
  | succ k ih => simpa [runOps, List.replicate_succ, Op.run] using ih

/-- C6. On a live node whose buffers are not released, for every list `vs` none of
whose values is an output of the node, and whatever the context held before:
`save_for_backward(vs)` followed by `save_variables()` makes
`get_saved_variables()` return exactly `vs`; any number `k` of
`get_saved_variables()` calls leaves the node unchanged, and the call after them
returns `vs` again. -/
theorem save_roundtrip (node : TensorlistNode) (vs : variable_list) (k : Nat)
    (hlive : node.ctx_.grad_fn_ = some node.addr)
    (hfree : node.ctx_.has_freed_buffers_ = false)
    (hnot : ∀ v ∈ vs, v.grad_fn ≠ some node.addr) :
    (runOps node [Op.save_for_backward vs, Op.save_variables]).ctx_.get_saved_variables
      = .ok vs ∧
    runOps (runOps node [Op.save_for_backward vs, Op.save_variables])
        (List.replicate k Op.get_saved_variables)
      = runOps node [Op.save_for_backward vs, Op.save_variables] ∧
    (runOps (runOps node [Op.save_for_backward vs, Op.save_variables])
        (List.replicate k Op.get_saved_variables)).ctx_.get_saved_variables = .ok vs := by
  have h1 : (runOps node [Op.save_for_backward vs,
      Op.save_variables]).ctx_.get_saved_variables = .ok vs := by
    simp only [runOps, List.foldl, Op.run, TensorlistNode.save_variables_to_ctx,
      TensorlistAutogradContext.save_variables, TensorlistAutogradContext.save_for_backward,
      TensorlistAutogradContext.get_saved_variables, hfree, hlive]
    simp only [Bool.false_eq_true, ↓reduceIte, List.map_map]
    congr 1
    conv_rhs => rw [← List.map_id vs]
    apply List.map_congr_left
    intro v hv
    exact unpack_saved node.addr v (hnot v hv)
  refine ⟨h1, runOps_get_saved _ k, ?_⟩
  rw [runOps_get_saved]
  exact h1

/-- Witness of C6: the context already holds other saved values; the three
arguments are saved, finalized and read back twice. -/
theorem save_roundtrip_witness :
    (runOps liveNode [Op.save_for_backward [g1, Variable.undefined, g2],
      Op.save_variables]).ctx_.get_saved_variables
      = .ok [g1, Variable.undefined, g2] ∧
    runOps (runOps liveNode [Op.save_for_backward [g1, Variable.undefined, g2],
        Op.save_variables]) (List.replicate 2 Op.get_saved_variables)
      = runOps liveNode [Op.save_for_backward [g1, Variable.undefined, g2],
          Op.save_variables] ∧
    (runOps (runOps liveNode [Op.save_for_backward [g1, Variable.undefined, g2],
        Op.save_variables])
        (List.replicate 2 Op.get_saved_variables)).ctx_.get_saved_variables
      = .ok [g1, Variable.undefined, g2] :=
  save_roundtrip liveNode [g1, Variable.undefined, g2] 2 rfl rfl (by decide)

/-! ## Claims on the list handed to the closure and on zero synthesis -/

theorem fill_all_undefined :
    ∀ (inputs : variable_list) (infos : List VariableInfo),
      (∀ v ∈ inputs, v.defined = false) → inputs.length = infos.length →
      List.zipWith fill_slot inputs infos = infos.map VariableInfo.zeros := by
  intro inputs
  induction inputs with
  | nil => intro infos _ h; cases infos <;> simp_all
  | cons v rest ih =>
    intro infos hu h
    cases infos with
    | nil => simp at h
    | cons info infos =>
      have hv : v.defined = false := hu v (by simp)
      have := ih infos (fun x hx => hu x (by simp [hx])) (by simpa using h)
      simp [fill_slot, hv, this]

theorem apply_calls_closure (node : TensorlistNode) (inputs backward_inputs : variable_list)
    (log : List VariableInfo)
    (hfill : node.backward_inputs inputs = (.ok backward_inputs, log)) :
    (node.apply inputs).node.ctx_ = (node.backward_ node.ctx_ backward_inputs).2 := by
  unfold TensorlistNode.apply
  simp only [hfill]
  split <;> rfl

theorem fill_slot_defined (v : Variable) (info : VariableInfo) :
    (fill_slot v info).defined = true := by
  cases hv : v.defined
  · have h : fill_slot v info = info.zeros := by simp [fill_slot, hv]
    rw [h]
    rfl
  · have h : fill_slot v info = v := by simp [fill_slot, hv]
    rw [h]
    exact hv

/-- C7. For every node and every gradOutputs with one slot per OutputRecord, the
list handed to the backward closure has the length of gradOutputs, every entry of
it is defined, entry i is gradOutputs[i] itself when that slot is defined and the
zero synthesized from OutputRecord i when it is not. -/
theorem filled_inputs (node : TensorlistNode) (inputs : variable_list)
    (hslots : inputs.length = node.output_info_.length) :
    ∃ backward_inputs, (node.backward_inputs inputs).1 = .ok backward_inputs ∧
      backward_inputs.length = inputs.length ∧
      (node.apply inputs).node.ctx_ = (node.backward_ node.ctx_ backward_inputs).2 ∧
      (∀ v ∈ backward_inputs, v.defined = true) ∧
      ∀ (i : Nat) (v : Variable) (info : VariableInfo), inputs[i]? = some v →
        node.output_info_[i]? = some info →
        (v.defined = true → backward_inputs[i]? = some v) ∧
        (v.defined = false → backward_inputs[i]? = some info.zeros ∧
          info.zeros.defined = true) := by
  have h := backward_inputs_loop_ok node.output_info_ inputs 0 (by omega)
  simp only [List.drop_zero] at h
  refine ⟨List.zipWith fill_slot inputs node.output_info_, ?_, ?_, ?_, ?_, ?_⟩
  · simp [TensorlistNode.backward_inputs, h]
  · simp [List.length_zipWith, hslots]
  · exact apply_calls_closure node inputs _ _ h
  · intro v hv
    obtain ⟨k, hk⟩ := List.mem_iff_getElem?.mp hv
    rw [List.getElem?_zipWith] at hk
    cases h1 : inputs[k]? with
    | none => simp [h1] at hk
    | some a =>
      cases h2 : node.output_info_[k]? with
      | none => simp [h1, h2] at hk
      | some b =>
        simp [h1, h2] at hk
        rw [← hk]
        exact fill_slot_defined a b
  · intro i v info hv hinfo
    have hentry : (List.zipWith fill_slot inputs node.output_info_)[i]?
        = some (fill_slot v info) := by
      simp [List.getElem?_zipWith, hv, hinfo]
    refine ⟨?_, ?_⟩
    · intro hd; rw [hentry]; simp [fill_slot, hd]
    · intro hd
      refine ⟨by rw [hentry]; simp [fill_slot, hd], ?_⟩
      simp [VariableInfo.zeros, Variable.defined]

/-- Witness of C7: one undefined slot against the one OutputRecord of `liveNode`. -/
theorem filled_inputs_witness :
    (liveNode.backward_inputs [Variable.undefined]).1
      = .ok [(VariableInfo.ofVariable (sampleTensor 100 true)).zeros] ∧
    ∃ backward_inputs,
      (liveNode.backward_inputs [Variable.undefined]).1 = .ok backward_inputs ∧
      backward_inputs.length = [Variable.undefined].length ∧
      (liveNode.apply [Variable.undefined]).node.ctx_
        = (liveNode.backward_ liveNode.ctx_ backward_inputs).2 ∧
      (∀ v ∈ backward_inputs, v.defined = true) ∧
      ∀ (i : Nat) (v : Variable) (info : VariableInfo),
        [Variable.undefined][i]? = some v →
        liveNode.output_info_[i]? = some info →
        (v.defined = true → backward_inputs[i]? = some v) ∧
        (v.defined = false → backward_inputs[i]? = some info.zeros ∧
          info.zeros.defined = true) :=
  ⟨rfl, filled_inputs liveNode [Variable.undefined] rfl⟩

/-- C8. For a node built by `TensorlistFunction::apply` from `args`, called with one
slot per OutputRecord, every slot undefined: the fill loop does not fail and the
closure receives the zero of every OutputRecord; and whenever the closure returns
an arity-correct list, the result has a defined entry at every position whose
input required differentiation: the closure's gradient if it defined one, else
the zero of that input's record. -/
theorem all_undefined_grads (addr : Nat) (g : Bool) (w : WrapOutputs) (args : variable_list)
    (fwd : ForwardClosure) (bwd : Closure) (ctx : TensorlistAutogradContext)
    (inputs : variable_list)
    (hundef : ∀ v ∈ inputs, v.defined = false)
    (hslots : inputs.length = (builtNode addr g w args fwd bwd ctx).output_info_.length) :
    ((builtNode addr g w args fwd bwd ctx).backward_inputs inputs).1 =
      .ok ((builtNode addr g w args fwd bwd ctx).output_info_.map VariableInfo.zeros) ∧
    ∀ (outputs : variable_list) (ctx1 : TensorlistAutogradContext),
      bwd ctx ((builtNode addr g w args fwd bwd ctx).output_info_.map VariableInfo.zeros)
        = (.ok outputs, ctx1) →
      args.length ≤ outputs.length →
      (∀ i o, args.length ≤ i → outputs[i]? = some o → o.defined = false) →
      ∃ res, ((builtNode addr g w args fwd bwd ctx).apply inputs).result = .ok res ∧
        res.length = args.length ∧
        ∀ (i : Nat) (arg o : Variable), args[i]? = some arg → arg.requires_grad = true →
          outputs[i]? = some o →
          ∃ r, res[i]? = some r ∧ r.defined = true ∧ (o.defined = true → r = o) ∧
            (o.defined = false → r = (VariableInfo.ofVariable arg).zeros) := by
  have hb : (builtNode addr g w args fwd bwd ctx).backward_ = bwd := by
    simp [builtNode, invoke_backward]
  have hloop := backward_inputs_loop_ok (builtNode addr g w args fwd bwd ctx).output_info_
    inputs 0 (by omega)
  simp only [List.drop_zero] at hloop
  rw [fill_all_undefined inputs _ hundef hslots] at hloop
  have hfill : (builtNode addr g w args fwd bwd ctx).backward_inputs inputs
      = (.ok ((builtNode addr g w args fwd bwd ctx).output_info_.map VariableInfo.zeros),
         ((inputs.zip (builtNode addr g w args fwd bwd ctx).output_info_).filter
            (fun p => !p.1.defined)).map Prod.snd) := hloop
  refine ⟨by rw [hfill], ?_⟩
  intro outputs ctx1 hcall hlen htrail
  have htrail1 : ∀ o ∈ outputs.drop args.length, o.defined = false := by
    intro o ho
    obtain ⟨i, hi, hget⟩ := (mem_drop_iff_index _ _ o).mp ho
    exact htrail i o hi hget
  have happ := apply_of_closure_ok (builtNode addr g w args fwd bwd ctx) inputs
    _ _ outputs ctx1 hfill (by rw [hb]; exact hcall)
  have hrec := builtNode_reconcile_ok addr g w args fwd bwd ctx outputs hlen htrail1
  refine ⟨_, by rw [happ, hrec], ?_, ?_⟩
  · simp [List.length_zipWith, List.length_take]; omega
  · intro i arg o harg hreq ho
    obtain ⟨hi, heq⟩ := List.getElem?_eq_some_iff.mp harg
    have hentry : (List.zipWith pick_gradient (outputs.take args.length)
        (args.map VariableInfo.ofVariable))[i]?
        = some (pick_gradient o (VariableInfo.ofVariable arg)) := by
      simp [List.getElem?_zipWith, List.getElem?_take, hi, harg, ho, heq]
    refine ⟨_, hentry, ?_, ?_, ?_⟩
    · cases hd : o.defined
      · have hp : pick_gradient o (VariableInfo.ofVariable arg)
            = (VariableInfo.ofVariable arg).zeros := by
          simp [pick_gradient, hd, VariableInfo.ofVariable, hreq]
        rw [hp]
        simp [VariableInfo.ofVariable, VariableInfo.zeros, Variable.defined]
      · have hp : pick_gradient o (VariableInfo.ofVariable arg) = o := by
          simp [pick_gradient, hd]
        rw [hp]
        exact hd
    · intro hd; simp [pick_gradient, hd]
    · intro hd; simp [pick_gradient, hd, VariableInfo.ofVariable, hreq]

/-- Witness of C8: `sparseNode` has three inputs, the first two requiring
differentiation, and one OutputRecord; its closure defines the first gradient
only. -/
theorem all_undefined_grads_witness :
    (sparseNode.apply [Variable.undefined]).result
      = .ok [g1, (VariableInfo.ofVariable (sampleTensor 2 true)).zeros, Variable.undefined] ∧
    (sparseNode.backward_inputs [Variable.undefined]).1 =
      .ok (sparseNode.output_info_.map VariableInfo.zeros) :=
  ⟨rfl,
   (all_undefined_grads 1 true sampleWrap sampleArgs sampleForward
      (constBackward [g1, Variable.undefined, Variable.undefined])
      TensorlistAutogradContext.init [Variable.undefined] (by decide) rfl).1⟩

theorem truncate_mem (self : TensorlistNode) (outputs : variable_list) :
    ∀ o ∈ (self.truncate outputs).1, o ∈ outputs := by
  intro o h
  unfold TensorlistNode.truncate at h
  simp only at h
  split at h
  · split at h
    · exact List.mem_of_mem_take h
    · exact h
  · exact h

theorem reconcile_defined_log (self : TensorlistNode) (outputs : variable_list)
    (hdef : ∀ o ∈ outputs, o.defined = true) :
    (self.reconcile outputs).2 = [] := by
  unfold TensorlistNode.reconcile
  simp only
  split
  · rfl
  · exact results_loop_defined_log _ _ _ _ _ _
      (fun o ho => hdef o (truncate_mem self outputs o ho))

theorem count_take_drop_succ (flags : List Bool) (i k : Nat) (b : Bool)
    (hget : flags[i]? = some b) :
    ((flags.drop i).take (k + 1)).count true
      = ((flags.drop (i + 1)).take k).count true + (if b = true then 1 else 0) := by
  obtain ⟨hi, hb⟩ := List.getElem?_eq_some_iff.mp hget
  rw [List.drop_eq_getElem_cons hi, hb]
  cases b <;> simp [List.take_succ_cons]

theorem results_loop_log_position (name : String) (flags : List Bool)
    (infos : List VariableInfo) :
    ∀ (rest : variable_list) (i : Nat) (results : variable_list),
      ∀ info ∈ (results_loop name flags infos i rest results).2,
        ∃ (k : Nat) (o : Variable), rest[k]? = some o ∧ o.defined = false ∧
          flags[i + k]? = some true ∧
          infos[results.length + ((flags.drop i).take k).count true]? = some info ∧
          info.requires_grad = true := by
  intro rest
  induction rest with
  | nil => intro i results info h; simp [results_loop] at h
  | cons out rest ih =>
    intro i results info h
    have lift : ∀ (b : Bool) (results1 : variable_list), flags[i]? = some b →
        results1.length = results.length + (if b = true then 1 else 0) →
        info ∈ (results_loop name flags infos (i + 1) rest results1).2 →
        ∃ (k : Nat) (o : Variable), (out :: rest)[k]? = some o ∧ o.defined = false ∧
          flags[i + k]? = some true ∧
          infos[results.length + ((flags.drop i).take k).count true]? = some info ∧
          info.requires_grad = true := by
      intro b results1 hb hlen hmem
      obtain ⟨k, o, hk, hd, hf, hidx, hreq⟩ := ih (i + 1) results1 info hmem
      refine ⟨k + 1, o, by simpa using hk, hd, ?_, ?_, hreq⟩
      · rw [← hf]; congr 1; omega
      · rw [← hidx, count_take_drop_succ flags i k b hb, hlen]
        congr 1
        omega
    unfold results_loop at h
    split at h
    · simp at h
    · rename_i hget
      split at h
      · simp at h
      · exact lift false results hget (by simp) h
    · rename_i hget
      split at h
      · rename_i hundef
        split at h
        · simp at h
        · rename_i info0 hinfo
          split at h
          · rename_i hg
            simp only [List.mem_cons] at h
            rcases h with h | h
            · subst h
              refine ⟨0, out, by simp, by simpa using hundef, by simpa using hget, ?_, hg⟩
              simpa using hinfo
            · exact lift true _ hget (by simp) h
          · exact lift true _ hget (by simp) h
      · exact lift true _ hget (by simp) h

theorem truncate_getElem (self : TensorlistNode) (outputs : variable_list) (i : Nat)
    (o : Variable) (h : (self.truncate outputs).1[i]? = some o) : outputs[i]? = some o := by
  unfold TensorlistNode.truncate at h
  simp only at h
  split at h
  · split at h
    · rw [List.getElem?_take] at h
      split at h
      · exact h
      · cases h
    · exact h
  · exact h

theorem reconcile_log_position (self : TensorlistNode) (outputs : variable_list) :
    ∀ info ∈ (self.reconcile outputs).2,
      ∃ (i : Nat) (o : Variable), outputs[i]? = some o ∧ o.defined = false ∧
        self.is_variable_input_[i]? = some true ∧
        self.input_info_[(self.is_variable_input_.take i).count true]? = some info ∧
        info.requires_grad = true := by
  intro info h
  unfold TensorlistNode.reconcile at h
  simp only at h
  split at h
  · simp at h
  · obtain ⟨k, o, hk, hd, hf, hidx, hreq⟩ := results_loop_log_position _ _ _ _ _ _ info h
    exact ⟨k, o, truncate_getElem self outputs k o hk, hd, by simpa using hf,
      by simpa using hidx, hreq⟩

theorem results_loop_skip_log (name : String) (flags : List Bool)
    (infos : List VariableInfo) :
    ∀ (rest : variable_list) (i : Nat) (results : variable_list),
      i + rest.length ≤ flags.length → results.length + rest.length ≤ infos.length →
      (∀ k o, flags[i + k]? = some false → rest[k]? = some o → o.defined = false) →
      (results_loop name flags infos i rest results).2 =
        ((((((flags.drop i).zip rest).filter (fun p => p.1)).map Prod.snd).zip
            (infos.drop results.length)).filter
          (fun p => !p.1.defined && p.2.requires_grad)).map Prod.snd := by
  intro rest
  induction rest with
  | nil => intro i results _ _ _; simp [results_loop]
  | cons out rest ih =>
    intro i results hi hr hno
    simp only [List.length_cons] at hi hr
    have hi1 : i < flags.length := by omega
    have hfdrop : flags.drop i = flags[i] :: flags.drop (i + 1) :=
      List.drop_eq_getElem_cons hi1
    have hfget : flags[i]? = some flags[i] := List.getElem?_eq_getElem hi1
    have hno1 : ∀ k o, flags[i + 1 + k]? = some false → rest[k]? = some o →
        o.defined = false := by
      intro k o hf ho
      apply hno (k + 1) o
      · rw [← hf]; congr 1; omega
      · simpa using ho
    rw [hfdrop]
    cases hb : flags[i]
    · have hv : out.defined = false := hno 0 out (by simpa [hfget] using hb) (by simp)
      have h := ih (i + 1) results (by omega) (by omega) hno1
      rw [hb] at hfget
      simp only [results_loop, hfget, hv]
      simpa [-List.getElem_cons_drop] using h
    · have hr1 : results.length < infos.length := by omega
      have hdrop : infos.drop results.length
          = infos[results.length] :: infos.drop (results.length + 1) :=
        List.drop_eq_getElem_cons hr1
      have hget : infos[results.length]? = some infos[results.length] :=
        List.getElem?_eq_getElem hr1
      have hnext : ∀ x : Variable,
          (results_loop name flags infos (i + 1) rest (results ++ [x])).2 =
            ((((((flags.drop (i + 1)).zip rest).filter (fun p => p.1)).map Prod.snd).zip
                (infos.drop (results.length + 1))).filter
              (fun p => !p.1.defined && p.2.requires_grad)).map Prod.snd := by
        intro x
        have h := ih (i + 1) (results ++ [x]) (by omega) (by simp; omega) hno1
        simpa using h
      rw [hb] at hfget
      rw [hdrop]
      cases hv : out.defined
      · cases hg : infos[results.length].requires_grad
        · simp only [results_loop, hfget, hv, hget, hg, Bool.not_false, Bool.not_true,
            Bool.false_eq_true, ↓reduceIte]
          rw [hnext]
          simp [hv, hg, -List.getElem_cons_drop]
        · simp only [results_loop, hfget, hv, hget, hg, Bool.not_false, Bool.not_true,
            Bool.false_eq_true, ↓reduceIte]
          rw [hnext]
          simp [hv, hg, -List.getElem_cons_drop]
      · simp only [results_loop, hfget, hv, Bool.not_false, Bool.not_true,
          Bool.false_eq_true, ↓reduceIte]
        rw [hnext]
        simp [hv, -List.getElem_cons_drop]

theorem count_take_all_true (flags : List Bool) (hflags : ∀ b ∈ flags, b = true) :
    ∀ i : Nat, i ≤ flags.length → (flags.take i).count true = i := by
  intro i hi
  have h : flags.take i = List.replicate i true := by
    apply List.eq_replicate_iff.mpr
    refine ⟨by simp [List.length_take]; omega, ?_⟩
    intro b hb
    exact hflags b (List.mem_of_mem_take hb)
  rw [h]
  simp

/-- C9, amended. For every node, `TensorlistNode::apply` called with gradOutputs
whose slots are all defined synthesizes no zero for a gradOutputs slot: the
closure receives gradOutputs itself, and if it fails the call has synthesized no
zero. When the closure returns, every zero the call synthesizes is made for a
position i flagged as a differentiable value whose returned gradient is
undefined, from the InputRecord the loop consults for that position (its index
is the number of flagged positions before i, which is i when all flags are
true), and that record required differentiation. If every returned gradient is
defined there is none at all; and when the list passes the arity check, no
non-differentiable position holds a defined gradient and there is a record per
flag, the zeros are exactly, in order, the records that required differentiation
among those paired with the flagged positions whose gradient is undefined. -/
theorem zeros_only_for_inputs (node : TensorlistNode) (inputs : variable_list)
    (hdef : ∀ v ∈ inputs, v.defined = true) :
    node.backward_inputs inputs = (.ok inputs, []) ∧
    (∀ (e : Error) (ctx1 : TensorlistAutogradContext),
      node.backward_ node.ctx_ inputs = (.error e, ctx1) →
      (node.apply inputs).zeros_calls = []) ∧
    (∀ (outputs : variable_list) (ctx1 : TensorlistAutogradContext),
      node.backward_ node.ctx_ inputs = (.ok outputs, ctx1) →
      (∀ info ∈ (node.apply inputs).zeros_calls,
        ∃ (i : Nat) (o : Variable), outputs[i]? = some o ∧ o.defined = false ∧
          node.is_variable_input_[i]? = some true ∧
          node.input_info_[(node.is_variable_input_.take i).count true]? = some info ∧
          ((∀ b ∈ node.is_variable_input_, b = true) →
            (node.is_variable_input_.take i).count true = i) ∧
          info.requires_grad = true) ∧
      ((∀ o ∈ outputs, o.defined = true) → (node.apply inputs).zeros_calls = []) ∧
      (node.is_variable_input_.length ≤ node.input_info_.length →
        node.is_variable_input_.length ≤ outputs.length →
        (∀ i o, node.is_variable_input_.length ≤ i → outputs[i]? = some o →
          o.defined = false) →
        (∀ (i : Nat) (o : Variable), node.is_variable_input_[i]? = some false →
          outputs[i]? = some o → o.defined = false) →
        (node.apply inputs).zeros_calls =
          (((((node.is_variable_input_.zip
                (outputs.take node.is_variable_input_.length)).filter
                  (fun p => p.1)).map Prod.snd).zip node.input_info_).filter
            (fun p => !p.1.defined && p.2.requires_grad)).map Prod.snd)) := by
  have hfill : node.backward_inputs inputs = (.ok inputs, []) :=
    backward_inputs_loop_defined node.output_info_ inputs 0 hdef
  refine ⟨hfill, ?_, ?_⟩
  · intro e ctx1 hcall
    rw [apply_of_closure_error node inputs inputs [] e ctx1 hfill hcall]
  · intro outputs ctx1 hcall
    have happ := apply_of_closure_ok node inputs inputs [] outputs ctx1 hfill hcall
    have hlog : (node.apply inputs).zeros_calls = (node.reconcile outputs).2 := by
      rw [happ]; simp
    refine ⟨?_, ?_, ?_⟩
    · intro info hmem
      rw [hlog] at hmem
      obtain ⟨i, o, ho, hd, hf, hidx, hreq⟩ := reconcile_log_position node outputs info hmem
      refine ⟨i, o, ho, hd, hf, hidx, ?_, hreq⟩
      intro hall
      exact count_take_all_true _ hall i
        (Nat.le_of_lt (List.getElem?_eq_some_iff.mp hf).1)
    · intro hall
      rw [hlog, reconcile_defined_log node outputs hall]
    · intro hinfo hlen htrail hno
      have htrail1 : ∀ o ∈ outputs.drop node.is_variable_input_.length,
          o.defined = false := by
        intro o ho
        obtain ⟨i, hi, hget⟩ := (mem_drop_iff_index _ _ o).mp ho
        exact htrail i o hi hget
      have hlt : (outputs.take node.is_variable_input_.length).length
          = node.is_variable_input_.length := by
        simp [List.length_take]; omega
      rw [hlog, reconcile_truncated node outputs hlen htrail1]
      have h := results_loop_skip_log node.name node.is_variable_input_ node.input_info_
        (outputs.take node.is_variable_input_.length) 0 []
        (by rw [hlt]; omega) (by rw [hlt]; simpa using hinfo)
        (by
          intro k o hkf hko
          have hkf1 : node.is_variable_input_[k]? = some false := by simpa using hkf
          have hk : k < node.is_variable_input_.length :=
            (List.getElem?_eq_some_iff.mp hkf1).1
          rw [List.getElem?_take, if_pos hk] at hko
          exact hno k o hkf1 hko)
      simpa using h

/-- Witness of C9: `sparseNode` is called with one defined slot; its closure leaves
the gradients of the second and third input undefined, and only the second
input required differentiation: the one zero comes from InputRecord 1. -/
theorem zeros_only_for_inputs_witness :
    sparseNode.backward_inputs [g1] = (.ok [g1], []) ∧
    (sparseNode.apply [g1]).zeros_calls = [VariableInfo.ofVariable (sampleTensor 2 true)] ∧
    sparseNode.input_info_[1]? = some (VariableInfo.ofVariable (sampleTensor 2 true)) ∧
    (∀ info ∈ (sparseNode.apply [g1]).zeros_calls,
      ∃ (i : Nat) (o : Variable),
        [g1, Variable.undefined, Variable.undefined][i]? = some o ∧ o.defined = false ∧
        sparseNode.is_variable_input_[i]? = some true ∧
        sparseNode.input_info_[(sparseNode.is_variable_input_.take i).count true]?
          = some info ∧
        ((∀ b ∈ sparseNode.is_variable_input_, b = true) →
          (sparseNode.is_variable_input_.take i).count true = i) ∧
        info.requires_grad = true) :=
  ⟨(zeros_only_for_inputs sparseNode [g1] (by decide)).1, rfl, rfl,
   ((zeros_only_for_inputs sparseNode [g1] (by decide)).2.2
      [g1, Variable.undefined, Variable.undefined] TensorlistAutogradContext.init rfl).1⟩

/-- C9 as stated fails: `sparseNode` is called with one defined slot, matching its
one OutputRecord, and its closure leaves the gradient of the second input
undefined; that input required differentiation, so the call synthesizes a zero
from its InputRecord and returns it. -/
theorem never_synthesizes_counterexample :
    (∀ v ∈ [g1], v.defined = true) ∧
    [g1].length = sparseNode.output_info_.length ∧
    (sparseNode.apply [g1]).zeros_calls = [VariableInfo.ofVariable (sampleTensor 2 true)] ∧
    (sparseNode.apply [g1]).result
      = .ok [g1, (VariableInfo.ofVariable (sampleTensor 2 true)).zeros,
          Variable.undefined] :=
  ⟨by decide, rfl, rfl, rfl⟩

/-! ## Claims on errors raised by the closure -/

theorem apply_node (node : TensorlistNode) (inputs : variable_list) :
    (node.apply inputs).node = { node with ctx_ := (node.apply inputs).node.ctx_ } := by
  unfold TensorlistNode.apply
  simp only
  split
  · rfl
  · split <;> rfl

/-- C10. If the backward closure fails with an error `e`, `TensorlistNode::apply`
fails with exactly `e` and leaves the context the closure left. In particular,
for a node whose closure hands on the failure of `get_saved_variables`: after a
first call of `apply` (whatever it did) and `release_variables()`, a second call
of `apply` fails with UseAfterRelease. -/
theorem closure_error_verbatim (node : TensorlistNode)
    (inputs backward_inputs : variable_list) (log : List VariableInfo)
    (hfill : node.backward_inputs inputs = (.ok backward_inputs, log)) :
    (∀ (e : Error) (ctx1 : TensorlistAutogradContext),
      node.backward_ node.ctx_ backward_inputs = (.error e, ctx1) →
      (node.apply inputs).result = .error e ∧ (node.apply inputs).node.ctx_ = ctx1) ∧
    ((∀ (ctx : TensorlistAutogradContext) (grads : variable_list) (e : Error),
        ctx.get_saved_variables = .error e → (node.backward_ ctx grads).1 = .error e) →
      ∀ first : variable_list,
        ((node.apply first).node.release_variables.apply inputs).result
          = .error .UseAfterRelease) := by
  constructor
  · intro e ctx1 hcall
    rw [apply_of_closure_error node inputs backward_inputs log e ctx1 hfill hcall]
    exact ⟨rfl, rfl⟩
  · intro hprop first
    have hn := apply_node node first
    generalize (node.apply first).node = n1 at hn
    have hb : n1.release_variables.backward_ = node.backward_ := by
      rw [hn]; rfl
    have hfill2 : n1.release_variables.backward_inputs inputs
        = (.ok backward_inputs, log) := by
      rw [← hfill, hn]; rfl
    have hget : n1.release_variables.ctx_.get_saved_variables
        = .error .UseAfterRelease := by
      simp [TensorlistNode.release_variables,
        TensorlistAutogradContext.get_saved_variables]
    have hcall := hprop n1.release_variables.ctx_ backward_inputs _ hget
    rw [← hb] at hcall
    have hpair : n1.release_variables.backward_ n1.release_variables.ctx_ backward_inputs
        = (.error .UseAfterRelease,
           (n1.release_variables.backward_ n1.release_variables.ctx_ backward_inputs).2) := by
      rw [← hcall]
    rw [apply_of_closure_error _ inputs backward_inputs log _ _ hfill2 hpair]

/-- Witness of C10: the closure of `liveNode` returns the saved variables; the
first call succeeds, the call after `release_variables()` fails. -/
theorem closure_error_verbatim_witness :
    (liveNode.apply [g1]).result = .ok sampleArgs ∧
    ((liveNode.apply [g1]).node.release_variables.apply [g1]).result
      = .error .UseAfterRelease :=
  ⟨rfl,
   (closure_error_verbatim liveNode [g1] [g1] [] rfl).2 (fun _ _ _ h => h) [g1]⟩

/-! ## Claims on the context operations -/

/-- C11. After `mark_dirty(vs)` the dirty set is exactly the set of ownership
tokens of `vs`, whatever it held before, and the non-differentiable set is
unchanged; after `mark_non_differentiable(vs)` the non-differentiable set is
exactly the set of tokens of `vs` and the dirty set is unchanged. Neither call
changes the to-save list, the saved-value list, the buffers-freed flag or the
back-reference. -/
theorem mark_replaces (ctx : TensorlistAutogradContext) (vs : variable_list) :
    ((ctx.mark_dirty vs).get_dirty = (vs.map Variable.unsafeGetTensorImpl).toFinset ∧
      (∀ token, token ∈ (ctx.mark_dirty vs).get_dirty ↔
        ∃ v ∈ vs, v.unsafeGetTensorImpl = token) ∧
      (ctx.mark_dirty vs).get_non_differentiable = ctx.get_non_differentiable ∧
      (ctx.mark_dirty vs).to_save_ = ctx.to_save_ ∧
      (ctx.mark_dirty vs).saved_variables_ = ctx.saved_variables_ ∧
      (ctx.mark_dirty vs).has_freed_buffers_ = ctx.has_freed_buffers_ ∧
      (ctx.mark_dirty vs).grad_fn_ = ctx.grad_fn_) ∧
    ((ctx.mark_non_differentiable vs).get_non_differentiable
        = (vs.map Variable.unsafeGetTensorImpl).toFinset ∧
      (∀ token, token ∈ (ctx.mark_non_differentiable vs).get_non_differentiable ↔
        ∃ v ∈ vs, v.unsafeGetTensorImpl = token) ∧
      (ctx.mark_non_differentiable vs).get_dirty = ctx.get_dirty ∧
      (ctx.mark_non_differentiable vs).to_save_ = ctx.to_save_ ∧
      (ctx.mark_non_differentiable vs).saved_variables_ = ctx.saved_variables_ ∧
      (ctx.mark_non_differentiable vs).has_freed_buffers_ = ctx.has_freed_buffers_ ∧
      (ctx.mark_non_differentiable vs).grad_fn_ = ctx.grad_fn_) := by
  refine ⟨⟨rfl, ?_, rfl, rfl, rfl, rfl, rfl⟩, ⟨rfl, ?_, rfl, rfl, rfl, rfl, rfl⟩⟩
  · intro token
    simp [TensorlistAutogradContext.mark_dirty, TensorlistAutogradContext.get_dirty]
  · intro token
    simp [TensorlistAutogradContext.mark_non_differentiable,
      TensorlistAutogradContext.get_non_differentiable]

/-- C12, amended. When the node has been destroyed (the back-reference resolves to
null), `get_saved_variables()` fails with NodeDisposed if the buffers have not
been released and with UseAfterRelease if they have. `save_variables()` does not
check the reference: it completes, empties the to-save list and rebuilds the
saved-value list, comparing each defined value's producer with the null
reference. -/
theorem disposed_node (ctx : TensorlistAutogradContext) (hgone : ctx.grad_fn_ = none) :
    (ctx.has_freed_buffers_ = false → ctx.get_saved_variables = .error .NodeDisposed) ∧
    (ctx.has_freed_buffers_ = true → ctx.get_saved_variables = .error .UseAfterRelease) ∧
    ctx.save_variables.to_save_ = [] ∧
    ctx.save_variables.saved_variables_ = ctx.to_save_.map (fun var =>
      if var.defined then { data := var, is_output := decide (var.grad_fn = none) }
      else SavedVariable.empty) ∧
    ctx.save_variables.saved_variables_.length = ctx.to_save_.length := by
  refine ⟨?_, ?_, rfl, ?_, ?_⟩
  · intro h
    simp [TensorlistAutogradContext.get_saved_variables, h, hgone]
  · intro h
    simp [TensorlistAutogradContext.get_saved_variables, h]
  · simp [TensorlistAutogradContext.save_variables, hgone]
  · simp [TensorlistAutogradContext.save_variables]

/-- Witness of C12: the context of a destroyed node. -/
theorem disposed_node_witness :
    disposedCtx.get_saved_variables = .error .NodeDisposed ∧
    disposedCtx.save_variables.to_save_ = [] ∧
    disposedCtx.save_variables.saved_variables_.length = disposedCtx.to_save_.length :=
  ⟨(disposed_node disposedCtx rfl).1 rfl, (disposed_node disposedCtx rfl).2.2.1,
   (disposed_node disposedCtx rfl).2.2.2.2⟩

/-- C12 as stated fails: on the context of a destroyed node, with a leaf and an
undefined value waiting, `save_variables()` raises nothing; it stores the two
saved values (the leaf flagged as an output) and empties the to-save list. -/
theorem finalize_disposed_counterexample :
    disposedCtx.grad_fn_ = none ∧
    disposedCtx.to_save_ = [g1, Variable.undefined] ∧
    disposedCtx.save_variables.saved_variables_
      = [{ data := g1, is_output := true }, SavedVariable.empty] ∧
    disposedCtx.save_variables.to_save_ = [] :=
  ⟨rfl, rfl, rfl, rfl⟩

/-- C17. `save_variables()` on a live node discards the saved values it held and
rebuilds the list from the to-save list: same length and order; entry i is the
empty SavedVariable exactly when to-save entry i is undefined, and otherwise
holds that value with `is_output` true exactly when the value's producer is this
node; afterwards the to-save list is empty, and a second `save_variables()`
leaves the saved-value list empty. -/
theorem finalize_rebuilds (node : TensorlistNode) (old : List SavedVariable)
    (hlive : node.ctx_.grad_fn_ = some node.addr) :
    node.save_variables_to_ctx.ctx_.saved_variables_.length = node.ctx_.to_save_.length ∧
    (∀ (i : Nat) (v : Variable), node.ctx_.to_save_[i]? = some v →
      ∃ sv, node.save_variables_to_ctx.ctx_.saved_variables_[i]? = some sv ∧
        (sv = SavedVariable.empty ↔ v.defined = false) ∧
        (v.defined = true → sv.data = v ∧
          (sv.is_output = true ↔ v.grad_fn = some node.addr))) ∧
    node.save_variables_to_ctx.ctx_.to_save_ = [] ∧
    (TensorlistNode.save_variables_to_ctx
        { node with ctx_ := { node.ctx_ with saved_variables_ := old } }).ctx_
      = node.save_variables_to_ctx.ctx_ ∧
    node.save_variables_to_ctx.save_variables_to_ctx.ctx_.saved_variables_ = [] := by
  refine ⟨?_, ?_, rfl, rfl, rfl⟩
  · simp [TensorlistNode.save_variables_to_ctx, TensorlistAutogradContext.save_variables]
  · intro i v hv
    refine ⟨if v.defined then { data := v, is_output := decide (v.grad_fn = some node.addr) }
      else SavedVariable.empty, ?_, ?_, ?_⟩
    · simp [TensorlistNode.save_variables_to_ctx, TensorlistAutogradContext.save_variables,
        hv, hlive]
    · cases v with
      | undefined => simp [Variable.defined]
      | tensor t => simp [Variable.defined, SavedVariable.empty]
    · intro hd
      simp [hd]

/-- Witness of C17: a leaf, an undefined value and an output of the node are
waiting to be saved. -/
theorem finalize_rebuilds_witness :
    savingNode.save_variables_to_ctx.ctx_.saved_variables_
      = [{ data := g1, is_output := false }, SavedVariable.empty,
         { data := Variable.tensor { impl := 100, tmeta := 7, requires_grad := true,
                                     grad_fn := some 1, zero_filled := false },
           is_output := true }] ∧
    savingNode.save_variables_to_ctx.ctx_.saved_variables_.length
      = savingNode.ctx_.to_save_.length ∧
    savingNode.save_variables_to_ctx.save_variables_to_ctx.ctx_.saved_variables_ = [] :=
  ⟨rfl, (finalize_rebuilds savingNode [] rfl).1, (finalize_rebuilds savingNode [] rfl).2.2.2.2⟩

/-! ## Lemmas on `TensorlistFunction::apply` -/

theorem invoke_grad_mode (addr : Nat) (g : Bool) (w : WrapOutputs) (args : variable_list)
    (fwd : ForwardClosure) (bwd : Closure) :
    (TensorlistFunction.apply addr g w args fwd bwd).grad_mode = g := by
  unfold TensorlistFunction.apply
  simp only [TensorlistNode.set_ctx_grad_fn]
  split
  · rfl
  · split <;> rfl

theorem invoke_forward_error (addr : Nat) (g : Bool) (w : WrapOutputs) (args : variable_list)
    (fwd : ForwardClosure) (bwd : Closure) (e : Error) (ctx1 : TensorlistAutogradContext)
    (hf : fwd false (forward_ctx addr) args = (.error e, ctx1)) :
    (TensorlistFunction.apply addr g w args fwd bwd).result = .error e ∧
    (TensorlistFunction.apply addr g w args fwd bwd).node.ctx_ = ctx1 ∧
    (TensorlistFunction.apply addr g w args fwd bwd).node.output_info_ = [] := by
  have hf1 : fwd false { TensorlistAutogradContext.init with grad_fn_ := some addr } args
      = (.error e, ctx1) := hf
  simp [TensorlistFunction.apply, TensorlistNode.set_ctx_grad_fn, hf1]

theorem invoke_wrap_error (addr : Nat) (g : Bool) (w : WrapOutputs) (args : variable_list)
    (fwd : ForwardClosure) (bwd : Closure) (outputs : variable_list) (e : Error)
    (ctx1 : TensorlistAutogradContext)
    (hf : fwd false (forward_ctx addr) args = (.ok outputs, ctx1))
    (hw : w args ctx1.get_non_differentiable ctx1.get_dirty (to_optional outputs)
      (if (g && any_variable_requires_grad args) = true then some addr else none)
        = .error e) :
    (TensorlistFunction.apply addr g w args fwd bwd).result = .error e ∧
    (TensorlistFunction.apply addr g w args fwd bwd).node.ctx_ = ctx1 ∧
    (TensorlistFunction.apply addr g w args fwd bwd).node.output_info_ = [] := by
  have hf1 : fwd false { TensorlistAutogradContext.init with grad_fn_ := some addr } args
      = (.ok outputs, ctx1) := hf
  cases hx : (g && any_variable_requires_grad args) <;>
    simp [TensorlistFunction.apply, TensorlistNode.set_ctx_grad_fn, hf1, hx] at hw ⊢ <;>
    simp [hw]

theorem invoke_ok (addr : Nat) (g : Bool) (w : WrapOutputs) (args : variable_list)
    (fwd : ForwardClosure) (bwd : Closure) (outputs : variable_list)
    (wrapped : List (Option Variable)) (ctx1 : TensorlistAutogradContext)
    (hf : fwd false (forward_ctx addr) args = (.ok outputs, ctx1))
    (hw : w args ctx1.get_non_differentiable ctx1.get_dirty (to_optional outputs)
      (if (g && any_variable_requires_grad args) = true then some addr else none)
        = .ok wrapped) :
    (TensorlistFunction.apply addr g w args fwd bwd).result = .ok (to_output_type wrapped) ∧
    (TensorlistFunction.apply addr g w args fwd bwd).node.ctx_
      = (if (g && any_variable_requires_grad args) = true then
           (ctx1.after_wrap wrapped).save_variables
         else ctx1.after_wrap wrapped) ∧
    (TensorlistFunction.apply addr g w args fwd bwd).node.output_info_
      = output_info_loop (g && any_variable_requires_grad args) wrapped := by
  have hf1 : fwd false { TensorlistAutogradContext.init with grad_fn_ := some addr } args
      = (.ok outputs, ctx1) := hf
  cases hx : (g && any_variable_requires_grad args) <;>
    simp [TensorlistFunction.apply, TensorlistNode.set_ctx_grad_fn, hf1, hx,
      TensorlistNode.save_variables_to_ctx] at hw ⊢ <;>
    simp [hw]

theorem output_info_loop_true (wrapped : List (Option Variable)) :
    output_info_loop true wrapped = wrapped.map (fun o =>
      match o with
      | some value => VariableInfo.ofVariable value
      | none => VariableInfo.placeholder) := by
  induction wrapped with
  | nil => rfl
  | cons o rest ih => cases o <;> simp [output_info_loop, ih]

theorem output_info_loop_false (wrapped : List (Option Variable)) :
    output_info_loop false wrapped = [] := by
  induction wrapped with
  | nil => rfl
  | cons o rest ih => simp [output_info_loop, ih]

theorem observe_wrapped_token (wrapped : List (Option Variable)) (v : Variable) :
    (observe_wrapped wrapped v).unsafeGetTensorImpl = v.unsafeGetTensorImpl := by
  unfold observe_wrapped
  split
  · rename_i x hfind
    have h := List.find?_some hfind
    simp only [Bool.and_eq_true, decide_eq_true_eq] at h
    exact h.2
  · rfl

theorem after_wrap_tokens (ctx : TensorlistAutogradContext)
    (wrapped : List (Option Variable)) :
    (ctx.after_wrap wrapped).to_save_.map Variable.unsafeGetTensorImpl
      = ctx.to_save_.map Variable.unsafeGetTensorImpl := by
  simp only [TensorlistAutogradContext.after_wrap, List.map_map]
  apply List.map_congr_left
  intro v _
  exact observe_wrapped_token wrapped v

/-! ## Claims on `TensorlistFunction::apply` -/

/-- C13. For every prior value `g` of the global flag: the forward closure runs with
the flag off (the call depends on the closure only through what it does when it
observes `false`), the node is executable exactly when `g` and some argument
requires differentiation (that value selects the producer handed to the wrapping
routine and the OutputRecords), and the flag equals `g` afterwards, also when the
forward closure fails. -/
theorem grad_mode_scoped (addr : Nat) (g : Bool) (w : WrapOutputs) (args : variable_list)
    (fwd : ForwardClosure) (bwd : Closure) :
    (TensorlistFunction.apply addr g w args fwd bwd).grad_mode = g ∧
    TensorlistFunction.apply addr g w args fwd bwd
      = TensorlistFunction.apply addr g w args (fun _ => fwd false) bwd ∧
    (∀ (e : Error) (ctx1 : TensorlistAutogradContext),
      fwd false (forward_ctx addr) args = (.error e, ctx1) →
      (TensorlistFunction.apply addr g w args fwd bwd).result = .error e ∧
      (TensorlistFunction.apply addr g w args fwd bwd).grad_mode = g) ∧
    (∀ (outputs : variable_list) (ctx1 : TensorlistAutogradContext)
        (wrapped : List (Option Variable)),
      fwd false (forward_ctx addr) args = (.ok outputs, ctx1) →
      w args ctx1.get_non_differentiable ctx1.get_dirty (to_optional outputs)
        (if (g && any_variable_requires_grad args) = true then some addr else none)
          = .ok wrapped →
      (TensorlistFunction.apply addr g w args fwd bwd).result
        = .ok (to_output_type wrapped) ∧
      (TensorlistFunction.apply addr g w args fwd bwd).node.output_info_
        = output_info_loop (g && any_variable_requires_grad args) wrapped ∧
      (TensorlistFunction.apply addr g w args fwd bwd).grad_mode = g) := by
  refine ⟨invoke_grad_mode addr g w args fwd bwd, rfl, ?_, ?_⟩
  · intro e ctx1 hf
    exact ⟨(invoke_forward_error addr g w args fwd bwd e ctx1 hf).1,
      invoke_grad_mode addr g w args fwd bwd⟩
  · intro outputs ctx1 wrapped hf hw
    have h := invoke_ok addr g w args fwd bwd outputs wrapped ctx1 hf hw
    exact ⟨h.1, h.2.2, invoke_grad_mode addr g w args fwd bwd⟩

/-- Witness of C13: with the flag on, the closure observes it off (`tmeta` 0 in its
output), the node is executable (one OutputRecord) and the flag is on afterwards;
a failing forward closure leaves the flag as it was. -/
theorem grad_mode_scoped_witness :
    (TensorlistFunction.apply 1 true sampleWrap sampleArgs observingForward savedBackward).result
      = .ok [Variable.tensor { impl := 100, tmeta := 0, requires_grad := true,
                               grad_fn := some 1, zero_filled := false }] ∧
    (TensorlistFunction.apply 1 true sampleWrap sampleArgs observingForward
      savedBackward).node.output_info_.length = 1 ∧
    (TensorlistFunction.apply 1 false sampleWrap sampleArgs observingForward
      savedBackward).node.output_info_ = [] ∧
    (TensorlistFunction.apply 1 true sampleWrap sampleArgs observingForward
      savedBackward).grad_mode = true ∧
    ((TensorlistFunction.apply 1 true sampleWrap sampleArgs (failingForward (.closure 5))
        savedBackward).result = .error (.closure 5) ∧
      (TensorlistFunction.apply 1 true sampleWrap sampleArgs (failingForward (.closure 5))
        savedBackward).grad_mode = true) :=
  ⟨rfl, rfl, rfl,
   (grad_mode_scoped 1 true sampleWrap sampleArgs observingForward savedBackward).1,
   (grad_mode_scoped 1 true sampleWrap sampleArgs (failingForward (.closure 5))
      savedBackward).2.2.1 (.closure 5) ((forward_ctx 1).save_for_backward sampleArgs) rfl⟩

/-- C14. When the forward closure returned and left the private saved-value list
and back-reference as it found them: if the wrapping routine returns, the
context is finalized exactly when the node is executable, and from the values as
the wrapping left them. Executable: the saved-value list holds one entry per
value of the to-save list the closure left, entry i built from value i as seen
after wrapping (so a saved value whose producer the wrapping set to this node is
stored as an output of the node), and the to-save list is empty. Not executable:
nothing is finalized, the saved-value list is empty and the to-save list still
holds the closure's values (same tensors, same order). If the wrapping routine
throws, nothing was finalized either. -/
theorem finalize_iff_executable (addr : Nat) (g : Bool) (w : WrapOutputs)
    (args : variable_list) (fwd : ForwardClosure) (bwd : Closure) (outputs : variable_list)
    (ctx1 : TensorlistAutogradContext)
    (hf : fwd false (forward_ctx addr) args = (.ok outputs, ctx1))
    (hpriv : ctx1.saved_variables_ = (forward_ctx addr).saved_variables_)
    (hback : ctx1.grad_fn_ = (forward_ctx addr).grad_fn_) :
    (∀ wrapped : List (Option Variable),
      w args ctx1.get_non_differentiable ctx1.get_dirty (to_optional outputs)
        (if (g && any_variable_requires_grad args) = true then some addr else none)
          = .ok wrapped →
      ((g && any_variable_requires_grad args) = true →
        (TensorlistFunction.apply addr g w args fwd bwd).node.ctx_
          = (ctx1.after_wrap wrapped).save_variables ∧
        (TensorlistFunction.apply addr g w args fwd bwd).node.ctx_.saved_variables_.length
          = ctx1.to_save_.length ∧
        (TensorlistFunction.apply addr g w args fwd bwd).node.ctx_.to_save_ = [] ∧
        (∀ (i : Nat) (v : Variable), ctx1.to_save_[i]? = some v →
          (TensorlistFunction.apply addr g w args fwd bwd).node.ctx_.saved_variables_[i]?
            = some (if (observe_wrapped wrapped v).defined then
                { data := observe_wrapped wrapped v,
                  is_output := decide ((observe_wrapped wrapped v).grad_fn = some addr) }
              else SavedVariable.empty))) ∧
      ((g && any_variable_requires_grad args) = false →
        (TensorlistFunction.apply addr g w args fwd bwd).node.ctx_
          = ctx1.after_wrap wrapped ∧
        (TensorlistFunction.apply addr g w args fwd bwd).node.ctx_.saved_variables_ = [] ∧
        (TensorlistFunction.apply addr g w args fwd bwd).node.ctx_.to_save_
          = ctx1.to_save_.map (observe_wrapped wrapped) ∧
        (TensorlistFunction.apply addr g w args fwd bwd).node.ctx_.to_save_.map
            Variable.unsafeGetTensorImpl
          = ctx1.to_save_.map Variable.unsafeGetTensorImpl)) ∧
    (∀ e : Error,
      w args ctx1.get_non_differentiable ctx1.get_dirty (to_optional outputs)
        (if (g && any_variable_requires_grad args) = true then some addr else none)
          = .error e →
      (TensorlistFunction.apply addr g w args fwd bwd).node.ctx_ = ctx1) := by
  constructor
  · intro wrapped hw
    have h := (invoke_ok addr g w args fwd bwd outputs wrapped ctx1 hf hw).2.1
    constructor
    · intro hx
      rw [h, if_pos hx]
      refine ⟨rfl, ?_, rfl, ?_⟩
      · simp [TensorlistAutogradContext.save_variables, TensorlistAutogradContext.after_wrap]
      · intro i v hv
        have hb : ctx1.grad_fn_ = some addr := hback
        simp [TensorlistAutogradContext.save_variables, TensorlistAutogradContext.after_wrap,
          hv, hb]
    · intro hx
      rw [h, if_neg (by simp [hx])]
      exact ⟨rfl, by rw [TensorlistAutogradContext.after_wrap, hpriv]; rfl, rfl,
        after_wrap_tokens ctx1 wrapped⟩
  · intro e hw
    exact (invoke_wrap_error addr g w args fwd bwd outputs e ctx1 hf hw).2.1

/-- Witness of C14: `savingForward` saves the tensor it returns and its three
arguments. With the flag on, the wrapping sets the producer of the returned
tensor before finalization, so it is stored as an output of the node and the
arguments are not; with the flag off nothing is finalized. -/
theorem finalize_iff_executable_witness :
    (TensorlistFunction.apply 1 true wrap_outputs sampleArgs savingForward
        savedBackward).node.ctx_.saved_variables_
      = [{ data := Variable.tensor { impl := 100, tmeta := 7, requires_grad := true,
                                     grad_fn := some 1, zero_filled := false },
           is_output := true },
         { data := sampleTensor 1 true, is_output := false },
         { data := sampleTensor 2 true, is_output := false },
         { data := sampleTensor 3 false, is_output := false }] ∧
    ((TensorlistFunction.apply 1 true wrap_outputs sampleArgs savingForward
        savedBackward).node.ctx_.saved_variables_.length = 4 ∧
      (TensorlistFunction.apply 1 true wrap_outputs sampleArgs savingForward
        savedBackward).node.ctx_.to_save_ = []) ∧
    ((TensorlistFunction.apply 1 false wrap_outputs sampleArgs savingForward
        savedBackward).node.ctx_.saved_variables_ = [] ∧
      (TensorlistFunction.apply 1 false wrap_outputs sampleArgs savingForward
        savedBackward).node.ctx_.to_save_ = sampleTensor 100 false :: sampleArgs) :=
  ⟨rfl,
   ⟨(((finalize_iff_executable 1 true wrap_outputs sampleArgs savingForward savedBackward
        [sampleTensor 100 false]
        ((forward_ctx 1).save_for_backward (sampleTensor 100 false :: sampleArgs))
        rfl rfl rfl).1
        [some (Variable.tensor { impl := 100, tmeta := 7, requires_grad := true,
                                 grad_fn := some 1, zero_filled := false })] rfl).1 rfl).2.1,
    rfl⟩,
   ⟨(((finalize_iff_executable 1 false wrap_outputs sampleArgs savingForward savedBackward
        [sampleTensor 100 false]
        ((forward_ctx 1).save_for_backward (sampleTensor 100 false :: sampleArgs))
        rfl rfl rfl).1
        [some (sampleTensor 100 false)] rfl).2 rfl).2.1,
    rfl⟩⟩

/-- C15. After `TensorlistFunction::apply` on `args` whose forward closure produced
`outputs`, with a wrapping routine that returned one slot per output: the node
has one InputRecord per argument, in argument order, whatever the arguments
require; when it is executable it has one OutputRecord per output, the absent
placeholder exactly where the wrapped output is absent and the record of the
wrapped value elsewhere; when it is not executable it has no OutputRecord.
`TensorlistNode::apply` and `release_variables` change neither sequence of any
node. -/
theorem record_counts (addr : Nat) (g : Bool) (w : WrapOutputs) (args : variable_list)
    (fwd : ForwardClosure) (bwd : Closure) (outputs : variable_list)
    (wrapped : List (Option Variable)) (ctx1 : TensorlistAutogradContext)
    (hf : fwd false (forward_ctx addr) args = (.ok outputs, ctx1))
    (hw : w args ctx1.get_non_differentiable ctx1.get_dirty (to_optional outputs)
      (if (g && any_variable_requires_grad args) = true then some addr else none)
        = .ok wrapped)
    (hslots : wrapped.length = outputs.length) :
    (TensorlistFunction.apply addr g w args fwd bwd).node.input_info_
      = args.map VariableInfo.ofVariable ∧
    (TensorlistFunction.apply addr g w args fwd bwd).node.input_info_.length = args.length ∧
    ((g && any_variable_requires_grad args) = true →
      (TensorlistFunction.apply addr g w args fwd bwd).node.output_info_.length
        = outputs.length ∧
      ∀ (i : Nat) (o : Option Variable), wrapped[i]? = some o →
        ∃ info, (TensorlistFunction.apply addr g w args fwd bwd).node.output_info_[i]?
            = some info ∧
          (info = VariableInfo.placeholder ↔ o = none) ∧
          (∀ value, o = some value → info = VariableInfo.ofVariable value)) ∧
    ((g && any_variable_requires_grad args) = false →
      (TensorlistFunction.apply addr g w args fwd bwd).node.output_info_ = []) ∧
    (∀ (node : TensorlistNode) (inputs : variable_list),
      (node.apply inputs).node.input_info_ = node.input_info_ ∧
      (node.apply inputs).node.output_info_ = node.output_info_ ∧
      node.release_variables.input_info_ = node.input_info_ ∧
      node.release_variables.output_info_ = node.output_info_) := by
  have hi := invoke_input_info addr g w args fwd bwd
  have ho := (invoke_ok addr g w args fwd bwd outputs wrapped ctx1 hf hw).2.2
  refine ⟨hi, by rw [hi]; simp, ?_, ?_, ?_⟩
  · intro hx
    rw [ho, hx, output_info_loop_true]
    refine ⟨by simp [hslots], ?_⟩
    intro i o hget
    cases o with
    | none =>
      exact ⟨VariableInfo.placeholder, by simp [hget], by simp, by simp⟩
    | some value =>
      refine ⟨VariableInfo.ofVariable value, by simp [hget], ?_, ?_⟩
      · simp [VariableInfo.ofVariable, VariableInfo.placeholder]
      · intro value1 hv
        cases hv
        rfl
  · intro hx
    rw [ho, hx, output_info_loop_false]
  · intro node inputs
    have h := apply_node node inputs
    refine ⟨by rw [h], by rw [h], rfl, rfl⟩

/-- Witness of C15: three arguments and one output, the node executable. -/
theorem record_counts_witness :
    liveNode.input_info_ = sampleArgs.map VariableInfo.ofVariable ∧
    liveNode.input_info_.length = sampleArgs.length ∧
    liveNode.output_info_ = [VariableInfo.ofVariable (sampleTensor 100 true)] :=
  ⟨(record_counts 1 true sampleWrap sampleArgs sampleForward savedBackward
      [sampleTensor 100 false]
      [some (Variable.tensor { impl := 100, tmeta := 7, requires_grad := true,
                               grad_fn := some 1, zero_filled := false })]
      ((forward_ctx 1).save_for_backward sampleArgs) rfl rfl rfl).1,
   (record_counts 1 true sampleWrap sampleArgs sampleForward savedBackward
      [sampleTensor 100 false]
      [some (Variable.tensor { impl := 100, tmeta := 7, requires_grad := true,
                               grad_fn := some 1, zero_filled := false })]
      ((forward_ctx 1).save_for_backward sampleArgs) rfl rfl rfl).2.1,
   rfl⟩

theorem wrap_output_same (non_differentiable dirty_inputs : Finset (Option Nat))
    (cdata : Option Nat) (v : Variable) :
    (wrap_output non_differentiable dirty_inputs cdata v).unsafeGetTensorImpl
        = v.unsafeGetTensorImpl ∧
    (wrap_output non_differentiable dirty_inputs cdata v).defined = v.defined ∧
    (wrap_output non_differentiable dirty_inputs cdata v).tmeta = v.tmeta ∧
    (cdata = none → wrap_output non_differentiable dirty_inputs cdata v = v) := by
  cases v with
  | undefined => cases cdata <;> simp [wrap_output]
  | tensor t =>
    cases cdata with
    | none => simp [wrap_output]
    | some node =>
      simp only [wrap_output]
      split <;> simp [Variable.unsafeGetTensorImpl, Variable.defined, Variable.tmeta]

/-- C16. With the wrapping and conversion routines as the spec describes them, for
every argument list and every forward closure that returns `outputs`,
`TensorlistFunction::apply` returns a list of the same length as `outputs`, in
the same order: entry i is output i wrapped (the same tensor, with the same
definedness and metadata, and output i itself when the node is not executable),
whether or not the node is executable. -/
theorem invoke_output_length (addr : Nat) (g : Bool) (args : variable_list)
    (fwd : ForwardClosure) (bwd : Closure) (outputs : variable_list)
    (ctx1 : TensorlistAutogradContext)
    (hf : fwd false (forward_ctx addr) args = (.ok outputs, ctx1)) :
    ∃ res, (TensorlistFunction.apply addr g wrap_outputs args fwd bwd).result = .ok res ∧
      res.length = outputs.length ∧
      res = outputs.map (wrap_output ctx1.get_non_differentiable ctx1.get_dirty
        (if (g && any_variable_requires_grad args) = true then some addr else none)) ∧
      ∀ (i : Nat) (o : Variable), outputs[i]? = some o →
        ∃ r, res[i]? = some r ∧ r.unsafeGetTensorImpl = o.unsafeGetTensorImpl ∧
          r.defined = o.defined ∧ r.tmeta = o.tmeta ∧
          ((g && any_variable_requires_grad args) = false → r = o) := by
  have hw : wrap_outputs args ctx1.get_non_differentiable ctx1.get_dirty
      (to_optional outputs)
      (if (g && any_variable_requires_grad args) = true then some addr else none)
      = .ok ((to_optional outputs).map (fun o => o.map
          (wrap_output ctx1.get_non_differentiable ctx1.get_dirty
            (if (g && any_variable_requires_grad args) = true then some addr
             else none)))) := rfl
  have h := (invoke_ok addr g wrap_outputs args fwd bwd outputs _ ctx1 hf hw).1
  have hres : to_output_type ((to_optional outputs).map (fun o => o.map
      (wrap_output ctx1.get_non_differentiable ctx1.get_dirty
        (if (g && any_variable_requires_grad args) = true then some addr else none))))
      = outputs.map (wrap_output ctx1.get_non_differentiable ctx1.get_dirty
        (if (g && any_variable_requires_grad args) = true then some addr else none)) := by
    simp [to_output_type, to_optional, List.map_map, Function.comp_def]
  rw [hres] at h
  refine ⟨_, h, by simp, rfl, ?_⟩
  intro i o ho
  have hs := wrap_output_same ctx1.get_non_differentiable ctx1.get_dirty
    (if (g && any_variable_requires_grad args) = true then some addr else none) o
  refine ⟨_, by simp [ho], hs.1, hs.2.1, hs.2.2.1, ?_⟩
  intro hx
  exact hs.2.2.2 (by simp [hx])

/-- Witness of C16: one output, with the flag on (executable) and off. -/
theorem invoke_output_length_witness :
    (TensorlistFunction.apply 1 false wrap_outputs sampleArgs sampleForward
      savedBackward).result = .ok [sampleTensor 100 false] ∧
    (TensorlistFunction.apply 1 true wrap_outputs sampleArgs sampleForward
      savedBackward).result
      = .ok [Variable.tensor { impl := 100, tmeta := 7, requires_grad := true,
                               grad_fn := some 1, zero_filled := false }] ∧
    ∃ res, (TensorlistFunction.apply 1 true wrap_outputs sampleArgs sampleForward
        savedBackward).result = .ok res ∧
      res.length = [sampleTensor 100 false].length ∧
      res = [sampleTensor 100 false].map
        (wrap_output ((forward_ctx 1).save_for_backward sampleArgs).get_non_differentiable
          ((forward_ctx 1).save_for_backward sampleArgs).get_dirty
          (if (true && any_variable_requires_grad sampleArgs) = true then some 1 else none)) ∧
      ∀ (i : Nat) (o : Variable), [sampleTensor 100 false][i]? = some o →
        ∃ r, res[i]? = some r ∧ r.unsafeGetTensorImpl = o.unsafeGetTensorImpl ∧
          r.defined = o.defined ∧ r.tmeta = o.tmeta ∧
          ((true && any_variable_requires_grad sampleArgs) = false → r = o) :=
  ⟨rfl, rfl,
   invoke_output_length 1 true sampleArgs sampleForward savedBackward
     [sampleTensor 100 false] ((forward_ctx 1).save_for_backward sampleArgs) rfl⟩

/-! ## Lemmas on reachability of the error branches -/

theorem results_loop_no_spurious (name : String) (flags : List Bool)
    (infos : List VariableInfo) (hflags : ∀ b ∈ flags, b = true) (n : String) (p : Nat) :
    ∀ (rest : variable_list) (i : Nat) (results : variable_list),
      (results_loop name flags infos i rest results).1 ≠ .error (.SpuriousGradient n p) := by
  intro rest
  induction rest with
  | nil => intro i results; simp [results_loop]
  | cons out rest ih =>
    intro i results
    unfold results_loop
    split
    · simp
    · rename_i hget
      have := hflags false (List.getElem?_mem hget)
      cases this
    · split
      · split
        · simp
        · split
          · exact ih _ _
          · exact ih _ _
      · exact ih _ _

theorem results_loop_in_range (name : String) (flags : List Bool)
    (infos : List VariableInfo) (vec : String) (idx : Nat) :
    ∀ (rest : variable_list) (i : Nat) (results : variable_list),
      i + rest.length ≤ flags.length → results.length + rest.length ≤ infos.length →
      (results_loop name flags infos i rest results).1 ≠ .error (.OutOfRange vec idx) := by
  intro rest
  induction rest with
  | nil => intro i results _ _; simp [results_loop]
  | cons out rest ih =>
    intro i results hi hr
    simp only [List.length_cons] at hi hr
    unfold results_loop
    split
    · rename_i hget
      have : flags.length ≤ i := List.getElem?_eq_none_iff.mp hget
      omega
    · split
      · simp
      · exact ih _ _ (by omega) (by omega)
    · split
      · split
        · rename_i hget
          have : infos.length ≤ results.length := List.getElem?_eq_none_iff.mp hget
          omega
        · split
          · exact ih _ _ (by omega) (by simp; omega)
          · exact ih _ _ (by omega) (by simp; omega)
      · exact ih _ _ (by omega) (by simp; omega)

theorem truncate_length (self : TensorlistNode) (outputs : variable_list) :
    (self.truncate outputs).1.length = (self.truncate outputs).2 := by
  unfold TensorlistNode.truncate
  simp only
  split
  · split
    · simp [List.length_take]; omega
    · rfl
  · rfl

theorem reconcile_in_range (self : TensorlistNode) (outputs : variable_list)
    (hinfo : self.is_variable_input_.length ≤ self.input_info_.length)
    (vec : String) (idx : Nat) :
    (self.reconcile outputs).1 ≠ .error (.OutOfRange vec idx) := by
  unfold TensorlistNode.reconcile
  simp only
  split
  · simp
  · rename_i h
    have hlen := truncate_length self outputs
    have heq : (self.truncate outputs).2 = self.is_variable_input_.length := by
      by_contra hne
      exact h hne
    exact results_loop_in_range _ _ _ _ _ _ _ _ (by omega) (by simp; omega)

theorem backward_inputs_loop_out_of_range (infos : List VariableInfo) :
    ∀ (inputs : variable_list) (i k : Nat), infos.length ≤ i + k →
      inputs[k]? = some Variable.undefined →
      ∃ j, j ≤ k ∧ infos.length ≤ i + j ∧ inputs[j]? = some Variable.undefined ∧
        (backward_inputs_loop infos i inputs).1
          = .error (.OutOfRange "output_info_" (i + j)) := by
  intro inputs
  induction inputs with
  | nil => intro i k _ h; simp at h
  | cons v rest ih =>
    intro i k hk hget
    have hrec : ∀ k1, k = k1 + 1 →
        ∃ j, j ≤ k1 ∧ infos.length ≤ i + 1 + j ∧ rest[j]? = some Variable.undefined ∧
          (backward_inputs_loop infos (i + 1) rest).1
            = .error (.OutOfRange "output_info_" (i + 1 + j)) := by
      intro k1 hk1
      subst hk1
      exact ih (i + 1) k1 (by omega) (by simpa using hget)
    cases hv : v.defined
    · cases hinfo : infos[i]? with
      | none =>
        have hv0 : v = Variable.undefined := by
          cases v with
          | undefined => rfl
          | tensor t => simp [Variable.defined] at hv
        refine ⟨0, by omega, ?_, by simp [hv0], ?_⟩
        · have := List.getElem?_eq_none_iff.mp hinfo
          omega
        · simp [backward_inputs_loop, hv, hinfo]
      | some info =>
        have hlt : i < infos.length := (List.getElem?_eq_some_iff.mp hinfo).1
        cases k with
        | zero => omega
        | succ k1 =>
          obtain ⟨j, hj, hlen, hundef, hres⟩ := hrec k1 rfl
          refine ⟨j + 1, by omega, by omega, by simpa using hundef, ?_⟩
          simp only [backward_inputs_loop, hv, hinfo, hres]
          simp [Except.map]
          omega
    · cases k with
      | zero =>
        simp at hget
        subst hget
        simp [Variable.defined] at hv
      | succ k1 =>
        obtain ⟨j, hj, hlen, hundef, hres⟩ := hrec k1 rfl
        refine ⟨j + 1, by omega, by omega, by simpa using hundef, ?_⟩
        simp only [backward_inputs_loop, hv, hres]
        simp [Except.map]
        omega

theorem reconcile_no_spurious (self : TensorlistNode) (outputs : variable_list)
    (hflags : ∀ b ∈ self.is_variable_input_, b = true) (n : String) (p : Nat) :
    (self.reconcile outputs).1 ≠ .error (.SpuriousGradient n p) := by
  unfold TensorlistNode.reconcile
  simp only
  split
  · simp
  · exact results_loop_no_spurious _ _ _ hflags _ _ _ _ _

theorem apply_of_fill_error (node : TensorlistNode) (inputs : variable_list) (e : Error)
    (h : (node.backward_inputs inputs).1 = .error e) :
    (node.apply inputs).result = .error e := by
  unfold TensorlistNode.apply
  simp only
  split
  · rename_i e1 he
    rw [h] at he
    cases he
    rfl
  · rename_i bi he
    rw [h] at he
    cases he

/-! ## Claims on the shape of built nodes and on index safety -/

/-- C18. A node built by `TensorlistFunction::apply` from `args` has every per-input
flag true, and as many flags and as many InputRecords as arguments, whatever the
arguments require. Hence its reconciliation never fails with SpuriousGradient;
when the closure returns, `TensorlistNode::apply` does not either, and for an
arity-correct returned list result entry i is built from returned gradient i and
InputRecord i, a defined gradient being passed through unchanged also when input
i did not require differentiation. -/
theorem built_flags_all_true (addr : Nat) (g : Bool) (w : WrapOutputs)
    (args : variable_list) (fwd : ForwardClosure) (bwd : Closure)
    (ctx : TensorlistAutogradContext) :
    (builtNode addr g w args fwd bwd ctx).is_variable_input_
      = List.replicate args.length true ∧
    (builtNode addr g w args fwd bwd ctx).is_variable_input_.length = args.length ∧
    (builtNode addr g w args fwd bwd ctx).input_info_.length = args.length ∧
    (∀ (outputs : variable_list) (name : String) (p : Nat),
      ((builtNode addr g w args fwd bwd ctx).reconcile outputs).1
        ≠ .error (.SpuriousGradient name p)) ∧
    (∀ (inputs backward_inputs outputs : variable_list) (log : List VariableInfo)
        (ctx1 : TensorlistAutogradContext),
      (builtNode addr g w args fwd bwd ctx).backward_inputs inputs
        = (.ok backward_inputs, log) →
      bwd ctx backward_inputs = (.ok outputs, ctx1) →
      (∀ (name : String) (p : Nat),
        ((builtNode addr g w args fwd bwd ctx).apply inputs).result
          ≠ .error (.SpuriousGradient name p)) ∧
      (args.length ≤ outputs.length →
        (∀ i o, args.length ≤ i → outputs[i]? = some o → o.defined = false) →
        ∃ res, ((builtNode addr g w args fwd bwd ctx).apply inputs).result = .ok res ∧
          ∀ (i : Nat) (arg o : Variable), args[i]? = some arg → outputs[i]? = some o →
            (builtNode addr g w args fwd bwd ctx).input_info_[i]?
              = some (VariableInfo.ofVariable arg) ∧
            res[i]? = some (pick_gradient o (VariableInfo.ofVariable arg)) ∧
            (o.defined = true → res[i]? = some o))) := by
  have hf := builtNode_flags addr g w args fwd bwd ctx
  have hi := builtNode_input_info addr g w args fwd bwd ctx
  have hb : (builtNode addr g w args fwd bwd ctx).backward_ = bwd := by
    simp [builtNode, invoke_backward]
  have hall : ∀ b ∈ (builtNode addr g w args fwd bwd ctx).is_variable_input_, b = true := by
    rw [hf]; intro b hb; exact (List.mem_replicate.mp hb).2
  refine ⟨hf, by rw [hf]; simp, by rw [hi]; simp, ?_, ?_⟩
  · intro outputs name p
    exact reconcile_no_spurious _ outputs hall name p
  · intro inputs backward_inputs outputs log ctx1 hfill hcall
    have happ := apply_of_closure_ok (builtNode addr g w args fwd bwd ctx) inputs
      backward_inputs log outputs ctx1 hfill (by rw [hb]; exact hcall)
    constructor
    · intro name p
      rw [happ]
      exact reconcile_no_spurious _ outputs hall name p
    · intro hlen htrail
      have htrail1 : ∀ o ∈ outputs.drop args.length, o.defined = false := by
        intro o ho
        obtain ⟨i, hi1, hget⟩ := (mem_drop_iff_index _ _ o).mp ho
        exact htrail i o hi1 hget
      have hrec := builtNode_reconcile_ok addr g w args fwd bwd ctx outputs hlen htrail1
      refine ⟨_, by rw [happ, hrec], ?_⟩
      intro i arg o harg ho
      obtain ⟨hlt, heq⟩ := List.getElem?_eq_some_iff.mp harg
      have hentry : (List.zipWith pick_gradient (outputs.take args.length)
          (args.map VariableInfo.ofVariable))[i]?
          = some (pick_gradient o (VariableInfo.ofVariable arg)) := by
        simp [List.getElem?_zipWith, List.getElem?_take, hlt, harg, ho, heq]
      refine ⟨by rw [hi]; simp [harg], hentry, ?_⟩
      intro hd
      rw [hentry]
      simp [pick_gradient, hd]

/-- Witness of C18: the closure of `fullNode` returns a defined gradient for the
third input, which did not require differentiation; it is passed through. -/
theorem built_flags_all_true_witness :
    fullNode.is_variable_input_ = [true, true, true] ∧
    (fullNode.apply [g1]).result = .ok [g1, g2, g1] ∧
    fullNode.is_variable_input_ = List.replicate sampleArgs.length true ∧
    ∀ (name : String) (p : Nat),
      (fullNode.apply [g1]).result ≠ .error (.SpuriousGradient name p) :=
  ⟨rfl, rfl,
   (built_flags_all_true 1 true sampleWrap sampleArgs sampleForward
      (constBackward [g1, g2, g1]) TensorlistAutogradContext.init).1,
   ((built_flags_all_true 1 true sampleWrap sampleArgs sampleForward
      (constBackward [g1, g2, g1]) TensorlistAutogradContext.init).2.2.2.2
      [g1] [g1] [g1, g2, g1] [] TensorlistAutogradContext.init rfl rfl).1⟩

/-- C19. For every node: when gradOutputs has no more slots than the node has
OutputRecords and the node has at least one InputRecord per flag, the fill loop
finds every OutputRecord it looks up, the reconciliation finds every flag and
InputRecord it looks up, and `TensorlistNode::apply` ends out of range for no
list the closure returns. When some undefined slot lies at or beyond the number
of OutputRecords (as any undefined slot does on a node without OutputRecords),
the lookup for the first such slot is out of range. -/
theorem index_safety (node : TensorlistNode) (inputs : variable_list) :
    (inputs.length ≤ node.output_info_.length →
      node.is_variable_input_.length ≤ node.input_info_.length →
      (∃ backward_inputs, (node.backward_inputs inputs).1 = .ok backward_inputs) ∧
      (∀ (outputs : variable_list) (vec : String) (idx : Nat),
        (node.reconcile outputs).1 ≠ .error (.OutOfRange vec idx)) ∧
      (∀ (backward_inputs outputs : variable_list) (log : List VariableInfo)
          (ctx1 : TensorlistAutogradContext),
        node.backward_inputs inputs = (.ok backward_inputs, log) →
        node.backward_ node.ctx_ backward_inputs = (.ok outputs, ctx1) →
        ∀ (vec : String) (idx : Nat),
          (node.apply inputs).result ≠ .error (.OutOfRange vec idx))) ∧
    (∀ k : Nat, node.output_info_.length ≤ k → inputs[k]? = some Variable.undefined →
      ∃ j, j ≤ k ∧ node.output_info_.length ≤ j ∧ inputs[j]? = some Variable.undefined ∧
        (node.backward_inputs inputs).1 = .error (.OutOfRange "output_info_" j) ∧
        (node.apply inputs).result = .error (.OutOfRange "output_info_" j)) := by
  constructor
  · intro hslots hinfo
    refine ⟨?_, ?_, ?_⟩
    · have h := backward_inputs_loop_ok node.output_info_ inputs 0 (by omega)
      exact ⟨List.zipWith fill_slot inputs (List.drop 0 node.output_info_),
        by rw [TensorlistNode.backward_inputs, h]⟩
    · intro outputs vec idx
      exact reconcile_in_range node outputs hinfo vec idx
    · intro backward_inputs outputs log ctx1 hfill hcall vec idx
      rw [apply_of_closure_ok node inputs backward_inputs log outputs ctx1 hfill hcall]
      exact reconcile_in_range node outputs hinfo vec idx
  · intro k hk hget
    obtain ⟨j, hj, hlen, hundef, hres⟩ :=
      backward_inputs_loop_out_of_range node.output_info_ inputs 0 k (by omega) hget
    simp only [Nat.zero_add] at hlen hres
    exact ⟨j, hj, hlen, hundef, hres, apply_of_fill_error node inputs _ hres⟩

/-- Witness of C19: `liveNode` has one OutputRecord and three InputRecords for three
flags, so one undefined slot is in range; `idleNode` is not executable and has no
OutputRecord, so the lookup for its undefined slot is out of range. -/
theorem index_safety_witness :
    (∃ backward_inputs,
      (liveNode.backward_inputs [Variable.undefined]).1 = .ok backward_inputs) ∧
    idleNode.output_info_ = [] ∧
    (idleNode.apply [Variable.undefined]).result = .error (.OutOfRange "output_info_" 0) ∧
    ∃ j, j ≤ 0 ∧ idleNode.output_info_.length ≤ j ∧
      [Variable.undefined][j]? = some Variable.undefined ∧
      (idleNode.backward_inputs [Variable.undefined]).1
        = .error (.OutOfRange "output_info_" j) ∧
      (idleNode.apply [Variable.undefined]).result = .error (.OutOfRange "output_info_" j) :=
  ⟨((index_safety liveNode [Variable.undefined]).1 (by decide) (by decide)).1, rfl, rfl,
   (index_safety idleNode [Variable.undefined]).2 0 (by decide) rfl⟩

end QuickMLP
